import Mathlib

/-!
# Verification of the LLM Council orchestration core

Shallow embedding of `backend/council.py` and `backend/storage.py`
(llm-council).  Python strings are modelled as Lean `String`s (character
based, as in Python 3), dictionaries whose key sets are fixed by the code
are modelled as structures, dictionaries used as finite maps are modelled
as association lists in insertion order, and the external network
capability `query_model` is an explicit oracle parameter.  Floating point
averages are modelled as exact rationals.
-/

set_option maxRecDepth 8000

namespace LLMCouncil

/-! ## Ranking parser (`parse_ranking_from_text`, council.py)

The regexes `Response [A-Z]`, `\d+\.\s*Response [A-Z]` and the marker
split are modelled on `List Char`.  Character classes follow the ASCII
meaning of `[A-Z]`, `\d`, `\s` used by the patterns. -/

/-- The ASCII whitespace characters matched by the regex class `\s`. -/
def isPySpace (c : Char) : Bool :=
  c = ' ' || c = '\t' || c = '\n' || c = '\r' || c = Char.ofNat 11 || c = Char.ofNat 12

def respLit : List Char := "Response ".data

def markerLit : List Char := "FINAL RANKING:".data

/-- One attempted match of the regex `Response [A-Z]` at the head of `cs`:
the literal `Response `, then one capital letter. -/
def respTokenAt? (cs : List Char) : Option (List Char) :=
  if respLit.isPrefixOf cs then
    (cs.drop 9).head?.bind fun c => if c.isUpper then some (respLit ++ [c]) else none
  else none

/-- Scanner for `re.findall(r'Response [A-Z]', text)`: `skip` characters
remain to be skipped (the tail of the previous match); at `skip = 0`, try
a match at the current position, on success record it and skip its 9
remaining characters, otherwise advance one character.  Phrased with the
skip counter so the recursion is structural on the character list. -/
def findRespGo : Nat → List Char → List (List Char)
  | _ + 1, [] => []
  | skip + 1, _ :: rest => findRespGo skip rest
  | 0, [] => []
  | 0, c :: rest =>
    match respTokenAt? (c :: rest) with
    | some tok => tok :: findRespGo 9 rest
    | none => findRespGo 0 rest

/-- `re.findall(r'Response [A-Z]', text)`: scan left to right; on a match
record it and continue after its end (matches are non-overlapping). -/
def findResponseTokens (cs : List Char) : List (List Char) :=
  findRespGo 0 cs

/-- One attempted match of `\d+\.\s*Response [A-Z]` at the head of `cs`,
with the regex backtracking semantics: the digit run and the whitespace
run are maximal (shorter runs end at a digit resp. whitespace character,
which can match neither `.` nor `R`).  Returns the `Response <letter>`
token inside the match — exactly what `re.search(r'Response [A-Z]', m)`
extracts from the match `m`, since the digits, the dot and the
whitespace cannot contain that pattern — together with the length of the
whole match (so the scan can continue after it). -/
def numberedTokenAt? (cs : List Char) : Option (List Char × Nat) :=
  let ds := cs.takeWhile Char.isDigit
  if ds.isEmpty then none
  else
    match cs.drop ds.length with
    | '.' :: r2 =>
      let ws := r2.takeWhile isPySpace
      match respTokenAt? (r2.drop ws.length) with
      | some tok => some (tok, ds.length + 1 + ws.length + 10)
      | none => none
    | _ => none

/-- Scanner for `re.findall(r'\d+\.\s*Response [A-Z]', text)` with a skip
counter, as in `findRespGo`: after a match of length `n` at the current
character, the remaining `n - 1` characters of the match are skipped. -/
def findNumGo : Nat → List Char → List (List Char)
  | _ + 1, [] => []
  | skip + 1, _ :: rest => findNumGo skip rest
  | 0, [] => []
  | 0, c :: rest =>
    match numberedTokenAt? (c :: rest) with
    | some (tok, n) => tok :: findNumGo (n - 1) rest
    | none => findNumGo 0 rest

/-- `re.findall(r'\d+\.\s*Response [A-Z]', text)` followed by extracting
the `Response <letter>` token from each match (the code's
`re.search(r'Response [A-Z]', m).group()` per match `m`). -/
def findNumberedTokens (cs : List Char) : List (List Char) :=
  findNumGo 0 cs

/-- The characters after the first occurrence of `FINAL RANKING:`
(`none` when the marker does not occur: Python's
`"FINAL RANKING:" in ranking_text` test). -/
def afterMarker? : List Char → Option (List Char)
  | [] => none
  | c :: rest =>
    if markerLit.isPrefixOf (c :: rest) then some ((c :: rest).drop 14)
    else afterMarker? rest

/-- Everything up to the next occurrence of `FINAL RANKING:` (or to the
end).  Applied to the text after the first marker this is field 1 of
Python's `ranking_text.split("FINAL RANKING:")`. -/
def upToMarker : List Char → List Char
  | [] => []
  | c :: rest =>
    if markerLit.isPrefixOf (c :: rest) then []
    else c :: upToMarker rest

/-- `parse_ranking_from_text` (council.py).  When the marker occurs,
`len(parts) >= 2` always holds, and `parts[1]` is `upToMarker` of the
text after the first marker occurrence. -/
def parse_ranking_from_text (ranking_text : String) : List String :=
  match afterMarker? ranking_text.data with
  | some tail =>
    let ranking_section := upToMarker tail
    let numbered_matches := findNumberedTokens ranking_section
    if numbered_matches.isEmpty then
      (findResponseTokens ranking_section).map fun t => String.mk t
    else
      numbered_matches.map fun t => String.mk t
  | none => (findResponseTokens ranking_text.data).map fun t => String.mk t

/-- The ranking-parser algorithm as the specification words it, as a
comparison point: the section examined after the marker is *everything*
following the first marker occurrence (rather than only up to the next
occurrence). -/
def parse_ranking_spec (ranking_text : String) : List String :=
  match afterMarker? ranking_text.data with
  | some tail =>
    let numbered_matches := findNumberedTokens tail
    if numbered_matches.isEmpty then
      (findResponseTokens tail).map fun t => String.mk t
    else
      numbered_matches.map fun t => String.mk t
  | none => (findResponseTokens ranking_text.data).map fun t => String.mk t

/-! ## Data model and configuration -/

/-- A `{"role": ..., "content": ...}` message dictionary. -/
structure ChatMsg where
  role : String
  content : String
deriving DecidableEq, Repr

/-- The successful result dictionary produced by the external
`query_model` (openrouter.py): `content`, `id`, `usage`, `finish_reason`.
The `usage` metadata mapping is opaque to the orchestration logic. -/
structure PyResponse where
  content : String
  id : Option String
  usage : List (String × Nat)
  finish_reason : Option String
deriving DecidableEq, Repr

/-- Modelled from the spec: the single external capability
`queryModel(model, messages, timeout) -> Response | null` (openrouter.py
is not part of the verified source); it returns `none` on any failure
rather than raising.  The per-call timeout is internal to the capability
and not modelled. -/
def ChatOracle : Type := String → List ChatMsg → Option PyResponse

/-- Modelled from the spec: `query_models_parallel` returns one entry per
requested model (success or `null`), keyed by model, in request order. -/
def query_models_parallel (q : ChatOracle) (models : List String)
    (messages : List ChatMsg) : List (String × Option PyResponse) :=
  models.map fun m => (m, q m messages)

/-- Council members (config.py). -/
def COUNCIL_MODELS : List String :=
  ["anthropic/claude-sonnet-4.5", "gpt-5.2-chat-latest", "gemini-3-pro-preview"]

def TITLE_MODEL : String := "gemini-2.5-flash"

def CHAIRMAN_MODEL : String := "gemini-3-pro-preview"

def CONVERSATION_HISTORY_LIMIT : Int := 10

def SUMMARIZATION_MODEL : String := "gemini-2.5-flash"

def SUMMARIZATION_FALLBACK_MODELS : List String :=
  ["openai/gpt-4o-mini", "anthropic/claude-haiku"]

/-- One element of the Stage-1 result list. -/
structure Stage1Entry where
  model : String
  response : String
  response_id : Option String
  usage : List (String × Nat)
  finish_reason : Option String
deriving DecidableEq, Repr

/-- One element of the Stage-2 result list. -/
structure Stage2Entry where
  model : String
  ranking : String
  parsed_ranking : List String
  response_id : Option String
  usage : List (String × Nat)
  finish_reason : Option String
deriving DecidableEq, Repr

/-- The metadata keys present only in the successful branch of Stage 3
(`response_id`, `usage`, `finish_reason`); the failure branch returns a
two-key dict, modelled by `meta = none` in `Stage3Result`. -/
structure Stage3Meta where
  response_id : Option String
  usage : List (String × Nat)
  finish_reason : Option String
deriving DecidableEq, Repr

structure Stage3Result where
  model : String
  response : String
  meta : Option Stage3Meta
deriving DecidableEq, Repr

/-- One entry of the aggregate ranking.  `average_rank` is Python's
float, modelled as an exact rational. -/
structure AggregateEntry where
  model : String
  average_rank : ℚ
  rankings_count : Nat
deriving DecidableEq, Repr

/-- The `metadata` dict of `run_full_council`: `{}` on the all-failed
path, both keys present otherwise. -/
inductive CouncilMetadata where
  | empty
  | mk (label_to_model : List (String × String)) (aggregate_rankings : List AggregateEntry)
deriving DecidableEq, Repr

/-! ## Aggregate rankings (`calculate_aggregate_rankings`, council.py) -/

/-- Round half to even to an integer, the rounding of Python's `round`. -/
def roundHalfEven (q : ℚ) : ℤ :=
  if q - ⌊q⌋ < 1/2 then ⌊q⌋
  else if 1/2 < q - ⌊q⌋ then ⌊q⌋ + 1
  else if ⌊q⌋ % 2 = 0 then ⌊q⌋ else ⌊q⌋ + 1

/-- Python's `round(x, 2)` on the exact rational value of `x`. -/
def round2 (q : ℚ) : ℚ := (roundHalfEven (q * 100) : ℚ) / 100

/-- `defaultdict(list)` keyed in first-insertion order: append `k` to the
position list of `m`, adding the key at the end when it is new. -/
def addPos : List (String × List Nat) → String → Nat → List (String × List Nat)
  | [], m, k => [(m, [k])]
  | (m', ps) :: rest, m, k =>
    if m' = m then (m', ps ++ [k]) :: rest else (m', ps) :: addPos rest m k

/-- `calculate_aggregate_rankings` (council.py): re-parse each ranking
text; the label at 1-based position `k` (via `enumerate(…, start=1)`)
contributes `k` to its mapped model; average the positions and sort
ascending by average rank.  Python's stable `list.sort` is modelled by
`List.insertionSort`, which is stable in the same sense.  The
accumulating `for` loops become `foldl`, the append-under-`if` loop a
`filterMap`. -/
def calculate_aggregate_rankings (stage2_results : List Stage2Entry)
    (label_to_model : List (String × String)) : List AggregateEntry :=
  let model_positions :=
    stage2_results.foldl (fun mp ranking =>
      ((parse_ranking_from_text ranking.ranking).enumFrom 1).foldl
        (fun mp pl =>
          match label_to_model.lookup pl.2 with
          | some model_name => addPos mp model_name pl.1
          | none => mp) mp) []
  let aggregate := model_positions.filterMap fun p =>
    if p.2.isEmpty then none
    else some { model := p.1,
                average_rank := round2 ((p.2.sum : ℚ) / (p.2.length : ℚ)),
                rankings_count := p.2.length }
  List.insertionSort (fun a b => a.average_rank ≤ b.average_rank) aggregate

/-! ## Stage 1–3 (council.py) -/

def stage1_messages (user_query : String) : List ChatMsg :=
  [⟨"user", user_query⟩]

/-- `stage1_collect_responses` (council.py): query all council models in
parallel and keep the successful responses in order (the appending
`for`/`if` loop over `responses.items()` is a `filterMap`). -/
def stage1_collect_responses (q : ChatOracle) (user_query : String) : List Stage1Entry :=
  (query_models_parallel q COUNCIL_MODELS (stage1_messages user_query)).filterMap fun mr =>
    mr.2.map fun r =>
      { model := mr.1, response := r.content, response_id := r.id,
        usage := r.usage, finish_reason := r.finish_reason }

/-- Anonymization label for index `i`: `chr(65 + i)`. -/
def labelChar (i : Nat) : Char := Char.ofNat (65 + i)

/-- `labels = [chr(65 + i) for i in range(len(stage1_results))]`. -/
def stage2_labels (n : Nat) : List Char := (List.range n).map labelChar

/-- `label_to_model = {f"Response {label}": result['model'] for label,
result in zip(labels, stage1_results)}`, in insertion order. -/
def label_to_model_map (stage1_results : List Stage1Entry) : List (String × String) :=
  ((stage2_labels stage1_results.length).zip stage1_results).map fun lr =>
    ("Response " ++ lr.1.toString, lr.2.model)

def responses_text_block (stage1_results : List Stage1Entry) : String :=
  String.intercalate "\n\n"
    (((stage2_labels stage1_results.length).zip stage1_results).map fun lr =>
      "Response " ++ lr.1.toString ++ ":\n" ++ lr.2.response)

def ranking_prompt (user_query responses_text : String) : String :=
  "You are evaluating different responses to the following question:\n\nQuestion: "
    ++ user_query
    ++ "\n\nHere are the responses from different models (anonymized):\n\n"
    ++ responses_text
    ++ "\n\nYour task:\n1. First, evaluate each response individually. For each response, explain what it does well and what it does poorly.\n2. Then, at the very end of your response, provide a final ranking.\n\nIMPORTANT: Your final ranking MUST be formatted EXACTLY as follows:\n- Start with the line \"FINAL RANKING:\" (all caps, with colon)\n- Then list the responses from best to worst as a numbered list\n- Each line should be: number, period, space, then ONLY the response label (e.g., \"1. Response A\")\n- Do not add any other text or explanations in the ranking section\n\nExample of the correct format for your ENTIRE response:\n\nResponse A provides good detail on X but misses Y...\nResponse B is accurate but lacks depth on Z...\nResponse C offers the most comprehensive answer...\n\nFINAL RANKING:\n1. Response C\n2. Response A\n3. Response B\n\nNow provide your evaluation and ranking:"

def stage2_messages (user_query : String) (stage1_results : List Stage1Entry) : List ChatMsg :=
  [⟨"user", ranking_prompt user_query (responses_text_block stage1_results)⟩]

/-- `stage2_collect_rankings` (council.py): anonymize, fan the ranking
prompt out to all council models, parse each successful answer. -/
def stage2_collect_rankings (q : ChatOracle) (user_query : String)
    (stage1_results : List Stage1Entry) : List Stage2Entry × List (String × String) :=
  let label_to_model := label_to_model_map stage1_results
  let stage2_results :=
    (query_models_parallel q COUNCIL_MODELS
        (stage2_messages user_query stage1_results)).filterMap fun mr =>
      mr.2.map fun r =>
        { model := mr.1, ranking := r.content,
          parsed_ranking := parse_ranking_from_text r.content,
          response_id := r.id, usage := r.usage, finish_reason := r.finish_reason }
  (stage2_results, label_to_model)

def stage1_text_block (stage1_results : List Stage1Entry) : String :=
  String.intercalate "\n\n" (stage1_results.map fun result =>
    "Model: " ++ result.model ++ "\nResponse: " ++ result.response)

def stage2_text_block (stage2_results : List Stage2Entry) : String :=
  String.intercalate "\n\n" (stage2_results.map fun result =>
    "Model: " ++ result.model ++ "\nRanking: " ++ result.ranking)

def chairman_prompt (user_query stage1_text stage2_text : String) : String :=
  "You are the Chairman of an LLM Council. Multiple AI models have provided responses to a user's question, and then ranked each other's responses.\n\nOriginal Question: "
    ++ user_query
    ++ "\n\nSTAGE 1 - Individual Responses:\n"
    ++ stage1_text
    ++ "\n\nSTAGE 2 - Peer Rankings:\n"
    ++ stage2_text
    ++ "\n\nYour task as Chairman is to synthesize all of this information into a single, comprehensive, accurate answer to the user's original question. Consider:\n- The individual responses and their insights\n- The peer rankings and what they reveal about response quality\n- Any patterns of agreement or disagreement\n\nProvide a clear, well-reasoned final answer that represents the council's collective wisdom:"

def stage3_messages (user_query : String) (stage1_results : List Stage1Entry)
    (stage2_results : List Stage2Entry) : List ChatMsg :=
  [⟨"user", chairman_prompt user_query (stage1_text_block stage1_results)
      (stage2_text_block stage2_results)⟩]

/-- The fixed sentinel response of a failed chairman call. -/
def chairmanFailureMessage : String := "Error: Unable to generate final synthesis."

/-- `stage3_synthesize_final` (council.py): one chairman call; on `null`
return the sentinel two-key dict instead of raising. -/
def stage3_synthesize_final (q : ChatOracle) (user_query : String)
    (stage1_results : List Stage1Entry) (stage2_results : List Stage2Entry) : Stage3Result :=
  match q CHAIRMAN_MODEL (stage3_messages user_query stage1_results stage2_results) with
  | none => { model := CHAIRMAN_MODEL, response := chairmanFailureMessage, meta := none }
  | some r => { model := CHAIRMAN_MODEL, response := r.content,
                meta := some ⟨r.id, r.usage, r.finish_reason⟩ }

/-- The error-shaped stage-3 dict of the total-Stage-1-failure path. -/
def councilErrorStage3 : Stage3Result :=
  { model := "error", response := "All models failed to respond. Please try again.", meta := none }

/-- `run_full_council` (council.py). -/
def run_full_council (q : ChatOracle) (user_query : String) :
    List Stage1Entry × List Stage2Entry × Stage3Result × CouncilMetadata :=
  let stage1_results := stage1_collect_responses q user_query
  if stage1_results.isEmpty then
    ([], [], councilErrorStage3, .empty)
  else
    let s2 := stage2_collect_rankings q user_query stage1_results
    let aggregate_rankings := calculate_aggregate_rankings s2.1 s2.2
    let stage3_result := stage3_synthesize_final q user_query stage1_results s2.1
    (stage1_results, s2.1, stage3_result, .mk s2.2 aggregate_rankings)

/-! ### Call-trace instrumentation

To state that the all-failed path issues no Stage-2 or Stage-3 query,
each external interaction is logged as an event; the traced orchestrator
mirrors `run_full_council` line by line. -/

/-- One external model-query interaction issued by the orchestrator. -/
inductive CallEvent where
  | parallel (models : List String) (messages : List ChatMsg)
  | single (model : String) (messages : List ChatMsg)
deriving DecidableEq, Repr

def run_full_council_traced (q : ChatOracle) (user_query : String) :
    (List Stage1Entry × List Stage2Entry × Stage3Result × CouncilMetadata) × List CallEvent :=
  let e1 : List CallEvent := [.parallel COUNCIL_MODELS (stage1_messages user_query)]
  let stage1_results := stage1_collect_responses q user_query
  if stage1_results.isEmpty then
    (([], [], councilErrorStage3, .empty), e1)
  else
    let e2 : List CallEvent := [.parallel COUNCIL_MODELS (stage2_messages user_query stage1_results)]
    let s2 := stage2_collect_rankings q user_query stage1_results
    let aggregate_rankings := calculate_aggregate_rankings s2.1 s2.2
    let e3 : List CallEvent := [.single CHAIRMAN_MODEL (stage3_messages user_query stage1_results s2.1)]
    let stage3_result := stage3_synthesize_final q user_query stage1_results s2.1
    ((stage1_results, s2.1, stage3_result, .mk s2.2 aggregate_rankings), e1 ++ e2 ++ e3)

/-! ## The `_with_history` variants (council.py)

`conversation_history` defaults to `None`; `if conversation_history:` is
false for both `None` and `[]`, so the history is modelled as a plain
list and the branch as an emptiness test. -/

/-- The role label attached to a history message: `"User" if
msg["role"] == "user" else "Assistant"`. -/
def roleLabel (m : ChatMsg) : String :=
  if m.role = "user" then "User" else "Assistant"

/-- The `context_text` accumulation of `stage1_collect_responses_with_history`
(also used by `quick_query`): one `Role: content` block per message. -/
def historyBlock (conversation_history : List ChatMsg) : String :=
  conversation_history.foldl (fun acc m => acc ++ roleLabel m ++ ": " ++ m.content ++ "\n\n") ""

def stage1_history_messages (user_query : String) (conversation_history : List ChatMsg) :
    List ChatMsg :=
  if conversation_history.isEmpty then [⟨"user", user_query⟩]
  else
    [⟨"user", "Previous conversation context:\n\n" ++ historyBlock conversation_history
        ++ "Current question: " ++ user_query
        ++ "\n\nPlease provide your response considering the conversation history."⟩]

/-- `stage1_collect_responses_with_history` (council.py). -/
def stage1_collect_responses_with_history (q : ChatOracle) (user_query : String)
    (conversation_history : List ChatMsg) : List Stage1Entry :=
  (query_models_parallel q COUNCIL_MODELS
      (stage1_history_messages user_query conversation_history)).filterMap fun mr =>
    mr.2.map fun r =>
      { model := mr.1, response := r.content, response_id := r.id,
        usage := r.usage, finish_reason := r.finish_reason }

/-- The `prompt_parts` list of `stage2_collect_rankings_with_history`,
joined with `"\n"`. -/
def stage2_history_prompt (user_query : String) (stage1_results : List Stage1Entry)
    (conversation_history : List ChatMsg) : String :=
  let historyParts : List String :=
    if conversation_history.isEmpty then []
    else "Previous conversation context:" ::
      conversation_history.map (fun m => roleLabel m ++ ": " ++ m.content) ++ [""]
  let responseParts : List String :=
    ((stage2_labels stage1_results.length).zip stage1_results).foldr
      (fun lr acc => ("**Response " ++ lr.1.toString ++ ":**") :: lr.2.response :: "" :: acc) []
  String.intercalate "\n" (historyParts
    ++ ["Current question: " ++ user_query, "",
        "Here are the anonymized responses from the council members:", ""]
    ++ responseParts
    ++ ["Please evaluate each response based on:",
        "1. Accuracy and factual correctness",
        "2. Insightfulness and depth",
        "3. Clarity and coherence",
        "4. Relevance to the question and conversation context",
        "",
        "Consider the conversation context when evaluating responses.",
        "",
        "After evaluating each response, please provide a final ranking from best to worst.",
        "",
        "**FINAL RANKING:**",
        "1. Response X (best)",
        "2. Response Y",
        "3. Response Z",
        "... (worst)",
        "",
        "Do not include any text after the ranking section."])

def stage2_history_messages (user_query : String) (stage1_results : List Stage1Entry)
    (conversation_history : List ChatMsg) : List ChatMsg :=
  [⟨"user", stage2_history_prompt user_query stage1_results conversation_history⟩]

/-- `stage2_collect_rankings_with_history` (council.py); the label
assignment (lines 412–414) is identical to the history-free variant. -/
def stage2_collect_rankings_with_history (q : ChatOracle) (user_query : String)
    (stage1_results : List Stage1Entry) (conversation_history : List ChatMsg) :
    List Stage2Entry × List (String × String) :=
  let label_to_model := label_to_model_map stage1_results
  let stage2_results :=
    (query_models_parallel q COUNCIL_MODELS
        (stage2_history_messages user_query stage1_results conversation_history)).filterMap
      fun mr =>
        mr.2.map fun r =>
          { model := mr.1, ranking := r.content,
            parsed_ranking := parse_ranking_from_text r.content,
            response_id := r.id, usage := r.usage, finish_reason := r.finish_reason }
  (stage2_results, label_to_model)

/-- The `prompt_parts` list of `stage3_synthesize_final_with_history`,
joined with `"\n"`. -/
def stage3_history_prompt (user_query : String) (stage1_results : List Stage1Entry)
    (stage2_results : List Stage2Entry) (conversation_history : List ChatMsg) : String :=
  let historyParts : List String :=
    if conversation_history.isEmpty then []
    else "Conversation History:" ::
      conversation_history.map (fun m => roleLabel m ++ ": " ++ m.content) ++ ["", "---"]
  let stage1Parts : List String :=
    stage1_results.foldr (fun r acc => ("**" ++ r.model ++ ":**") :: r.response :: "" :: acc) []
  let stage2Parts : List String :=
    stage2_results.foldr (fun r acc => ("**" ++ r.model ++ ":**") :: r.ranking :: "" :: acc) []
  let synthesisParts : List String :=
    if conversation_history.isEmpty then
      ["Please synthesize a comprehensive response to the current question that:",
       "1. Integrates the best insights from the individual responses",
       "2. Takes into account the peer evaluations",
       "3. Provides a clear, coherent answer",
       "",
       "Your response should reflect the collective wisdom of the council while addressing the user's question directly."]
    else
      ["Please synthesize a comprehensive response to the current question that:",
       "1. Considers the ongoing conversation context and flow",
       "2. Integrates the best insights from the individual responses",
       "3. Takes into account the peer evaluations",
       "4. Provides a coherent, natural continuation of the conversation",
       "",
       "Your response should acknowledge the conversation history while providing a thorough answer to the current question."]
  String.intercalate "\n" (historyParts
    ++ ["Current Exchange:", "Question: " ++ user_query, "", "STAGE 1 - Individual Responses:"]
    ++ stage1Parts
    ++ ["STAGE 2 - Peer Rankings:"]
    ++ stage2Parts
    ++ synthesisParts)

def stage3_history_messages (user_query : String) (stage1_results : List Stage1Entry)
    (stage2_results : List Stage2Entry) (conversation_history : List ChatMsg) : List ChatMsg :=
  [⟨"user", stage3_history_prompt user_query stage1_results stage2_results conversation_history⟩]

/-- `stage3_synthesize_final_with_history` (council.py): `if response:`
on a dict result is a `None` test (a successful response dict is
non-empty, hence truthy). -/
def stage3_synthesize_final_with_history (q : ChatOracle) (user_query : String)
    (stage1_results : List Stage1Entry) (stage2_results : List Stage2Entry)
    (conversation_history : List ChatMsg) : Stage3Result :=
  match q CHAIRMAN_MODEL
      (stage3_history_messages user_query stage1_results stage2_results conversation_history) with
  | some r => { model := CHAIRMAN_MODEL, response := r.content,
                meta := some ⟨r.id, r.usage, r.finish_reason⟩ }
  | none => { model := CHAIRMAN_MODEL, response := chairmanFailureMessage, meta := none }

/-- `run_full_council_with_history` (council.py). -/
def run_full_council_with_history (q : ChatOracle) (user_query : String)
    (conversation_history : List ChatMsg) :
    List Stage1Entry × List Stage2Entry × Stage3Result × CouncilMetadata :=
  let stage1_results := stage1_collect_responses_with_history q user_query conversation_history
  if stage1_results.isEmpty then
    ([], [], councilErrorStage3, .empty)
  else
    let s2 := stage2_collect_rankings_with_history q user_query stage1_results conversation_history
    let aggregate_rankings := calculate_aggregate_rankings s2.1 s2.2
    let stage3_result :=
      stage3_synthesize_final_with_history q user_query stage1_results s2.1 conversation_history
    (stage1_results, s2.1, stage3_result, .mk s2.2 aggregate_rankings)

def run_full_council_with_history_traced (q : ChatOracle) (user_query : String)
    (conversation_history : List ChatMsg) :
    (List Stage1Entry × List Stage2Entry × Stage3Result × CouncilMetadata) × List CallEvent :=
  let e1 : List CallEvent :=
    [.parallel COUNCIL_MODELS (stage1_history_messages user_query conversation_history)]
  let stage1_results := stage1_collect_responses_with_history q user_query conversation_history
  if stage1_results.isEmpty then
    (([], [], councilErrorStage3, .empty), e1)
  else
    let e2 : List CallEvent :=
      [.parallel COUNCIL_MODELS (stage2_history_messages user_query stage1_results conversation_history)]
    let s2 := stage2_collect_rankings_with_history q user_query stage1_results conversation_history
    let aggregate_rankings := calculate_aggregate_rankings s2.1 s2.2
    let e3 : List CallEvent :=
      [.single CHAIRMAN_MODEL (stage3_history_messages user_query stage1_results s2.1 conversation_history)]
    let stage3_result :=
      stage3_synthesize_final_with_history q user_query stage1_results s2.1 conversation_history
    ((stage1_results, s2.1, stage3_result, .mk s2.2 aggregate_rankings), e1 ++ e2 ++ e3)

/-! ## Conversation title (`generate_conversation_title`, council.py) -/

def title_prompt (user_query : String) : String :=
  "Generate a very short title (3-5 words maximum) that summarizes the following question.\nThe title should be concise and descriptive. Do not use quotes or punctuation in the title.\n\nQuestion: "
    ++ user_query ++ "\n\nTitle:"

def title_messages (user_query : String) : List ChatMsg :=
  [⟨"user", title_prompt user_query⟩]

def isQuoteChar (c : Char) : Bool := c = '"' || c = '\''

/-- Python's `s.strip('"\'')`: remove every leading and trailing
character belonging to the quote set. -/
def stripQuotes (s : String) : String :=
  String.mk (((s.data.dropWhile isQuoteChar).reverse.dropWhile isQuoteChar).reverse)

/-- Python's `s.strip()`: remove leading and trailing whitespace
(modelled over the ASCII whitespace characters). -/
def pyStrip (s : String) : String :=
  String.mk (((s.data.dropWhile Char.isWhitespace).reverse.dropWhile Char.isWhitespace).reverse)

/-- `generate_conversation_title` (council.py).  `response.get('content',
'New Conversation')` is the `content` field (present in every successful
response).  The title query is issued with `timeout=30.0`, which lives
inside the external capability (not modelled). -/
def generate_conversation_title (q : ChatOracle) (user_query : String) : String :=
  match q TITLE_MODEL (title_messages user_query) with
  | none => "New Conversation"
  | some r =>
    let title := stripQuotes (pyStrip r.content)
    if title.length > 50 then title.take 47 ++ "..." else title

/-! ## Conversation history extraction (`get_conversation_history`, storage.py) -/

/-- `message["stage3"]` as tested by `get_conversation_history`: the
`response` key may be absent. -/
structure StoredStage3 where
  response : Option String
deriving DecidableEq, Repr

/-- A `conversation["messages"]` entry as read by
`get_conversation_history`: a user message, or an assistant message
whose `stage3` dict may itself be absent (the assistant's `stage1` and
`stage2` payloads are never read by it). -/
inductive StoredMsg where
  | user (content : String)
  | assistant (stage3 : Option StoredStage3)
deriving DecidableEq, Repr

/-- `if limit and exchange_count >= limit`: `limit` of `None` — and `0`,
which is also falsy — never triggers the break. -/
def limitReached : Option Int → Int → Bool
  | none, _ => false
  | some l, count => l ≠ 0 && l ≤ count

/-- The scanning `while` loop of `get_conversation_history` (storage.py).
The list argument is the remaining `messages[i:]`; a user message
followed by an assistant message with a `stage3["response"]` consumes
both (`i += 1` skip), any other user message contributes a lone user
entry, and a bare assistant message is skipped.  `exchange_count` counts
user messages and the loop breaks right after the count reaches the
limit. -/
def historyLoop : List StoredMsg → Int → Option Int → List ChatMsg
  | [], _, _ => []
  | .assistant _ :: rest, count, limit => historyLoop rest count limit
  | .user content :: .assistant (some ⟨some resp⟩) :: r2, count, limit =>
    if limitReached limit (count + 1) then [⟨"user", content⟩, ⟨"assistant", resp⟩]
    else ⟨"user", content⟩ :: ⟨"assistant", resp⟩ :: historyLoop r2 (count + 1) limit
  | .user content :: rest, count, limit =>
    if limitReached limit (count + 1) then [⟨"user", content⟩]
    else ⟨"user", content⟩ :: historyLoop rest (count + 1) limit

/-- `get_conversation_history` on the message list of a stored
conversation.  (Loading the conversation is file storage, external to
the core; a missing conversation returns `[]` before this loop runs.) -/
def get_conversation_history_messages (messages : List StoredMsg) (limit : Option Int) :
    List ChatMsg :=
  historyLoop messages 0 limit

/-! ## Context building (`build_conversation_context`, storage.py) -/

/-- Python's `l[start:]`: a negative `start` counts from the end (so
`l[-k:]` with `k = 0` is the whole list), a nonnegative one from the
front. -/
def pySliceFrom (start : Int) (l : List α) : List α :=
  if start < 0 then l.drop (l.length - min start.natAbs l.length)
  else l.drop start.toNat

/-- `build_conversation_context` (storage.py), parameterized by the
summarizer collaborator: its call sits under `try/except`, so an
exception outcome is an `Except.error`.  `limit=None` selects
`CONVERSATION_HISTORY_LIMIT`. -/
def build_conversation_context (summarize : List ChatMsg → Except Unit String)
    (conversation_history : List ChatMsg) (limit : Option Int := none)
    (summarize_older : Bool := true) : List ChatMsg :=
  let limit := match limit with | none => CONVERSATION_HISTORY_LIMIT | some l => l
  if (conversation_history.length : Int) ≤ limit * 2 then
    conversation_history
  else if ¬ summarize_older then
    pySliceFrom (-(limit * 2)) conversation_history
  else
    let split_point : Int := (conversation_history.length : Int) - limit * 2
    if split_point ≤ 0 then conversation_history
    else
      let older_messages := conversation_history.take split_point.toNat
      let recent_messages := conversation_history.drop split_point.toNat
      if older_messages.isEmpty then recent_messages
      else
        match summarize older_messages with
        | .ok summary =>
          ⟨"system", "Previous conversation summary: " ++ summary⟩ :: recent_messages
        | .error _ => pySliceFrom (-((limit + 5) * 2)) conversation_history

/-! ## Summarizer (`summarize_conversation_segment`, storage.py) -/

/-- The outcome of `await query_model(...)` inside the summarizer's
per-model `try`: the call may raise (caught by the `except`), return
`None`, or return a response dict. -/
def SummaryOracle : Type := String → List ChatMsg → Except Unit (Option PyResponse)

/-- The `conversation_text` accumulation with its 8000-character budget:
a message whose block would push the text over the budget stops the
accumulation (`break`). -/
def conversationTextLoop : List ChatMsg → String → String
  | [], acc => acc
  | m :: rest, acc =>
    let text := roleLabel m ++ ": " ++ m.content ++ "\n\n"
    if acc.length + text.length > 8000 then acc
    else conversationTextLoop rest (acc ++ text)

def summarization_prompt (conversation_text : String) : String :=
  "Please summarize the following conversation in a concise way that preserves the key points and maintains the conversation flow:\n\n"
    ++ conversation_text
    ++ "\n\nProvide a summary that would help someone continue this conversation naturally. Focus on the main topics discussed and any important conclusions reached.\n\nPlease keep the summary under 300 words."

def summary_messages (messages : List ChatMsg) : List ChatMsg :=
  [⟨"user", summarization_prompt (conversationTextLoop messages "")⟩]

/-- `models_to_try = [SUMMARIZATION_MODEL] + SUMMARIZATION_FALLBACK_MODELS`. -/
def models_to_try : List String := SUMMARIZATION_MODEL :: SUMMARIZATION_FALLBACK_MODELS

/-- The `for model in models_to_try` loop: the first successful response
with non-empty (truthy) content wins, returned stripped; an exception,
a `None` response and empty content all move to the next model. -/
def trySummarizeModels (q : SummaryOracle) (msgs : List ChatMsg) :
    List String → Option String
  | [] => none
  | model :: rest =>
    match q model msgs with
    | .ok (some r) =>
      if r.content = "" then trySummarizeModels q msgs rest
      else some (pyStrip r.content)
    | .ok none => trySummarizeModels q msgs rest
    | .error _ => trySummarizeModels q msgs rest

/-- The deterministic final fallback summary: the first five messages,
each cut to its first 50 characters with `"..."` appended when longer.
(Its enclosing `try/except` cannot fire here: every message carries a
`content` string.) -/
def simpleFallbackSummary (messages : List ChatMsg) : String :=
  "Conversation covers: " ++ String.intercalate ", " ((messages.take 5).map fun m =>
    if m.content.length > 50 then m.content.take 50 ++ "..." else m.content)

/-- `summarize_conversation_segment` (storage.py). -/
def summarize_conversation_segment (q : SummaryOracle) (messages : List ChatMsg) : String :=
  match trySummarizeModels q (summary_messages messages) models_to_try with
  | some summary => summary
  | none => simpleFallbackSummary messages

/-! ## Specification-side reference definitions -/

/-- The position contributions a model receives according to the
aggregate-ranking description: for each Stage-2 result, the 1-based
position of every label mapping to the model, duplicates preserved, in
ranking order. -/
def specPositions (stage2_results : List Stage2Entry) (label_to_model : List (String × String))
    (m : String) : List Nat :=
  (stage2_results.map fun r =>
    ((parse_ranking_from_text r.ranking).enumFrom 1).filterMap fun pl =>
      if label_to_model.lookup pl.2 = some m then some pl.1 else none).flatten

/-- The exchanges of a stored conversation: each user message starts an
exchange, paired with the following assistant message's
`stage3["response"]` when present. -/
def specExchanges : List StoredMsg → List (String × Option String)
  | [] => []
  | .user c :: .assistant (some ⟨some r⟩) :: rest => (c, some r) :: specExchanges rest
  | .user c :: rest => (c, none) :: specExchanges rest
  | .assistant _ :: rest => specExchanges rest

/-- The history messages one exchange contributes. -/
def exchangeMsgs : String × Option String → List ChatMsg
  | (c, some r) => [⟨"user", c⟩, ⟨"assistant", r⟩]
  | (c, none) => [⟨"user", c⟩]

/-- A summarization attempt that moves on to the next model: the call
raised, returned `None`, or returned empty (falsy) content. -/
def attemptFails (q : SummaryOracle) (msgs : List ChatMsg) (m : String) : Prop :=
  ∀ r, q m msgs = .ok (some r) → r.content = ""

/-! ## Concrete instances used by the witnesses -/

/-- An oracle on which every model call fails. -/
def qAllFail : ChatOracle := fun _ _ => none

/-- An oracle on which only the chairman model fails. -/
def qChairmanFails : ChatOracle := fun m _ =>
  if m = CHAIRMAN_MODEL then none else some ⟨"ok", none, [], none⟩

/-- A title oracle returning a 60-character content with surrounding
whitespace and quotes. -/
def qLongTitle : ChatOracle := fun _ _ =>
  some ⟨" \"aaaaaaaaaaaaaaaaaaaaaaaaaaaaaaaaaaaaaaaaaaaaaaaaaaaaaaaaaaaa\" ", none, [], none⟩

/-- A summarization oracle: the primary model returns `None`, the first
fallback model succeeds with padded content, the second raises. -/
def qSummarySecond : SummaryOracle := fun m _ =>
  if m = "openai/gpt-4o-mini" then .ok (some ⟨"  a summary  ", none, [], none⟩)
  else if m = "anthropic/claude-haiku" then .error ()
  else .ok none

/-- A summarization oracle whose first model succeeds with content that
carries surrounding whitespace. -/
def qSummaryPadded : SummaryOracle := fun _ _ => .ok (some ⟨" hi ", none, [], none⟩)

/-- A summarization oracle on which every model call raises. -/
def qSummaryRaise : SummaryOracle := fun _ _ => .error ()

/-- Two Stage-2 entries realizing the worked aggregate example: ranker1
ranks C, A, B and ranker2 ranks A, C. -/
def exampleStage2 : List Stage2Entry :=
  [{ model := "ranker1", ranking := "FINAL RANKING:\n1. Response C\n2. Response A\n3. Response B",
     parsed_ranking := ["Response C", "Response A", "Response B"],
     response_id := none, usage := [], finish_reason := none },
   { model := "ranker2", ranking := "FINAL RANKING:\n1. Response A\n2. Response C",
     parsed_ranking := ["Response A", "Response C"],
     response_id := none, usage := [], finish_reason := none }]

/-- The worked example's label map `{A: m1, B: m2, C: m3}`. -/
def exampleLabelMap : List (String × String) :=
  [("Response A", "m1"), ("Response B", "m2"), ("Response C", "m3")]

/-- Two Stage-1 entries with distinct models, for the label-bijection
witness. -/
def exampleStage1 : List Stage1Entry :=
  [{ model := "m1", response := "r1", response_id := none, usage := [], finish_reason := none },
   { model := "m2", response := "r2", response_id := none, usage := [], finish_reason := none }]

/-!
# Theorems

General lemmas first, then one theorem (plus witness or counterexample)
per specification claim.
-/

/-! ## Scanner unfolding lemmas -/

theorem findRespGo_skip : ∀ (l : List Char) (k : Nat), findRespGo k l = findRespGo 0 (l.drop k)
  | [], 0 => rfl
  | [], _ + 1 => rfl
  | _ :: _, 0 => by simp
  | _ :: rest, k + 1 => by
    simpa [findRespGo] using findRespGo_skip rest k

theorem findResponseTokens_cons (c : Char) (rest : List Char) :
    findResponseTokens (c :: rest) =
      match respTokenAt? (c :: rest) with
      | some tok => tok :: findResponseTokens (rest.drop 9)
      | none => findResponseTokens rest := by
  show findRespGo 0 (c :: rest) = _
  rw [findRespGo]
  cases respTokenAt? (c :: rest) <;> simp [findResponseTokens, findRespGo_skip]

theorem numberedTokenAt?_pos {cs : List Char} {tok : List Char} {n : Nat}
    (h : numberedTokenAt? cs = some (tok, n)) : 1 ≤ n := by
  unfold numberedTokenAt? at h
  dsimp only at h
  split at h
  · exact absurd h (by simp)
  · split at h
    · split at h
      · simp only [Option.some.injEq, Prod.mk.injEq] at h
        omega
      · exact absurd h (by simp)
    · exact absurd h (by simp)

theorem findNumGo_skip : ∀ (l : List Char) (k : Nat), findNumGo k l = findNumGo 0 (l.drop k)
  | [], 0 => rfl
  | [], _ + 1 => rfl
  | _ :: _, 0 => by simp
  | _ :: rest, k + 1 => by
    simpa [findNumGo] using findNumGo_skip rest k

theorem findNumberedTokens_cons (c : Char) (rest : List Char) :
    findNumberedTokens (c :: rest) =
      match numberedTokenAt? (c :: rest) with
      | some (tok, n) => tok :: findNumberedTokens ((c :: rest).drop n)
      | none => findNumberedTokens rest := by
  rcases h : numberedTokenAt? (c :: rest) with _ | ⟨tok, n⟩
  · simp only [findNumberedTokens, findNumGo, h]
  · have h1 : 1 ≤ n := numberedTokenAt?_pos h
    have h2 : rest.drop (n - 1) = (c :: rest).drop n := by
      rcases n with _ | n
      · omega
      · simp
    simp only [findNumberedTokens, findNumGo, h, findNumGo_skip rest (n - 1), h2]

/-! ## Trace consistency -/

theorem run_full_council_traced_fst (q : ChatOracle) (user_query : String) :
    (run_full_council_traced q user_query).1 = run_full_council q user_query := by
  unfold run_full_council_traced run_full_council
  by_cases h : (stage1_collect_responses q user_query).isEmpty <;> simp [h]

theorem run_full_council_with_history_traced_fst (q : ChatOracle) (user_query : String)
    (conversation_history : List ChatMsg) :
    (run_full_council_with_history_traced q user_query conversation_history).1 =
      run_full_council_with_history q user_query conversation_history := by
  unfold run_full_council_with_history_traced run_full_council_with_history
  by_cases h :
      (stage1_collect_responses_with_history q user_query conversation_history).isEmpty <;>
    simp [h]

/-! ## Claim C1 -/

theorem stage1_all_null (q : ChatOracle) (user_query : String)
    (h : ∀ m ∈ COUNCIL_MODELS, q m (stage1_messages user_query) = none) :
    stage1_collect_responses q user_query = [] := by
  have ha := h "anthropic/claude-sonnet-4.5" (by simp [COUNCIL_MODELS])
  have hb := h "gpt-5.2-chat-latest" (by simp [COUNCIL_MODELS])
  have hc := h "gemini-3-pro-preview" (by simp [COUNCIL_MODELS])
  simp [stage1_collect_responses, query_models_parallel, COUNCIL_MODELS, ha, hb, hc]

theorem stage1_history_all_null (q : ChatOracle) (user_query : String)
    (conversation_history : List ChatMsg)
    (h : ∀ m ∈ COUNCIL_MODELS,
      q m (stage1_history_messages user_query conversation_history) = none) :
    stage1_collect_responses_with_history q user_query conversation_history = [] := by
  have ha := h "anthropic/claude-sonnet-4.5" (by simp [COUNCIL_MODELS])
  have hb := h "gpt-5.2-chat-latest" (by simp [COUNCIL_MODELS])
  have hc := h "gemini-3-pro-preview" (by simp [COUNCIL_MODELS])
  simp [stage1_collect_responses_with_history, query_models_parallel, COUNCIL_MODELS, ha, hb, hc]

/-- C1: if every council model's Stage-1 call returns null, both
orchestrator entry points return exactly
`([], [], {model: "error", response: <fixed message>}, {})`, and the
traced runs record the single Stage-1 fan-out as their only external
interaction — no Stage-2 ranking call and no Stage-3 chairman call are
issued (the aggregate computation, which sits between them, is likewise
skipped by the early return). -/
theorem claim_C1_stage1_total_failure (q : ChatOracle) (user_query : String)
    (conversation_history : List ChatMsg)
    (h1 : ∀ m ∈ COUNCIL_MODELS, q m (stage1_messages user_query) = none)
    (h2 : ∀ m ∈ COUNCIL_MODELS,
      q m (stage1_history_messages user_query conversation_history) = none) :
    run_full_council q user_query = ([], [], councilErrorStage3, .empty) ∧
    run_full_council_traced q user_query =
      (([], [], councilErrorStage3, .empty),
        [.parallel COUNCIL_MODELS (stage1_messages user_query)]) ∧
    run_full_council_with_history q user_query conversation_history =
      ([], [], councilErrorStage3, .empty) ∧
    run_full_council_with_history_traced q user_query conversation_history =
      (([], [], councilErrorStage3, .empty),
        [.parallel COUNCIL_MODELS (stage1_history_messages user_query conversation_history)]) := by
  have e1 := stage1_all_null q user_query h1
  have e2 := stage1_history_all_null q user_query conversation_history h2
  refine ⟨?_, ?_, ?_, ?_⟩
  · simp [run_full_council, e1]
  · simp [run_full_council_traced, e1]
  · simp [run_full_council_with_history, e2]
  · simp [run_full_council_with_history_traced, e2]

theorem claim_C1_stage1_total_failure_witness :
    run_full_council qAllFail "hello" = ([], [], councilErrorStage3, .empty) ∧
    run_full_council_with_history qAllFail "hello" [⟨"user", "hi"⟩, ⟨"assistant", "there"⟩] =
      ([], [], councilErrorStage3, .empty) := by
  have h := claim_C1_stage1_total_failure qAllFail "hello"
    [⟨"user", "hi"⟩, ⟨"assistant", "there"⟩] (fun _ _ => rfl) (fun _ _ => rfl)
  exact ⟨h.1, h.2.2.1⟩

/-! ## Claim C6 -/

/-- C6: a failed chairman call yields the fixed sentinel stage-3 dict
`{model: <chairman>, response: "Error: Unable to generate final
synthesis."}` (no metadata keys, no exception), and the orchestrator
still returns the Stage-1 and Stage-2 results exactly as computed,
together with complete metadata. -/
theorem claim_C6_chairman_failure (q : ChatOracle) (user_query : String)
    (conversation_history : List ChatMsg) :
    (∀ s1 s2, q CHAIRMAN_MODEL (stage3_messages user_query s1 s2) = none →
      stage3_synthesize_final q user_query s1 s2 =
        ⟨CHAIRMAN_MODEL, chairmanFailureMessage, none⟩) ∧
    (∀ s1 s2,
      q CHAIRMAN_MODEL (stage3_history_messages user_query s1 s2 conversation_history) = none →
      stage3_synthesize_final_with_history q user_query s1 s2 conversation_history =
        ⟨CHAIRMAN_MODEL, chairmanFailureMessage, none⟩) ∧
    (stage1_collect_responses q user_query ≠ [] →
      q CHAIRMAN_MODEL (stage3_messages user_query (stage1_collect_responses q user_query)
        (stage2_collect_rankings q user_query (stage1_collect_responses q user_query)).1) =
          none →
      run_full_council q user_query =
        (stage1_collect_responses q user_query,
         (stage2_collect_rankings q user_query (stage1_collect_responses q user_query)).1,
         ⟨CHAIRMAN_MODEL, chairmanFailureMessage, none⟩,
         .mk (stage2_collect_rankings q user_query (stage1_collect_responses q user_query)).2
           (calculate_aggregate_rankings
             (stage2_collect_rankings q user_query (stage1_collect_responses q user_query)).1
             (stage2_collect_rankings q user_query (stage1_collect_responses q user_query)).2))) ∧
    (stage1_collect_responses_with_history q user_query conversation_history ≠ [] →
      q CHAIRMAN_MODEL (stage3_history_messages user_query
        (stage1_collect_responses_with_history q user_query conversation_history)
        (stage2_collect_rankings_with_history q user_query
          (stage1_collect_responses_with_history q user_query conversation_history)
          conversation_history).1 conversation_history) = none →
      run_full_council_with_history q user_query conversation_history =
        (stage1_collect_responses_with_history q user_query conversation_history,
         (stage2_collect_rankings_with_history q user_query
           (stage1_collect_responses_with_history q user_query conversation_history)
           conversation_history).1,
         ⟨CHAIRMAN_MODEL, chairmanFailureMessage, none⟩,
         .mk (stage2_collect_rankings_with_history q user_query
             (stage1_collect_responses_with_history q user_query conversation_history)
             conversation_history).2
           (calculate_aggregate_rankings
             (stage2_collect_rankings_with_history q user_query
               (stage1_collect_responses_with_history q user_query conversation_history)
               conversation_history).1
             (stage2_collect_rankings_with_history q user_query
               (stage1_collect_responses_with_history q user_query conversation_history)
               conversation_history).2))) := by
  refine ⟨fun s1 s2 h => ?_, fun s1 s2 h => ?_, fun hne h => ?_, fun hne h => ?_⟩
  · simp [stage3_synthesize_final, h]
  · simp [stage3_synthesize_final_with_history, h]
  · have hE : (stage1_collect_responses q user_query).isEmpty = false := by
      simpa [List.isEmpty_iff] using hne
    simp [run_full_council, hE, stage3_synthesize_final, h]
  · have hE : (stage1_collect_responses_with_history q user_query
        conversation_history).isEmpty = false := by
      simpa [List.isEmpty_iff] using hne
    simp [run_full_council_with_history, hE, stage3_synthesize_final_with_history, h]

theorem claim_C6_chairman_failure_witness :
    stage1_collect_responses qChairmanFails "q" ≠ [] ∧
    (run_full_council qChairmanFails "q").2.2.1 =
      ⟨CHAIRMAN_MODEL, chairmanFailureMessage, none⟩ ∧
    (run_full_council qChairmanFails "q").1 = stage1_collect_responses qChairmanFails "q" ∧
    (run_full_council qChairmanFails "q").2.1 =
      (stage2_collect_rankings qChairmanFails "q"
        (stage1_collect_responses qChairmanFails "q")).1 := by
  have hne : stage1_collect_responses qChairmanFails "q" ≠ [] := by decide
  have hnul : qChairmanFails CHAIRMAN_MODEL
      (stage3_messages "q" (stage1_collect_responses qChairmanFails "q")
        (stage2_collect_rankings qChairmanFails "q"
          (stage1_collect_responses qChairmanFails "q")).1) = none := by
    show (if CHAIRMAN_MODEL = CHAIRMAN_MODEL then none else _) = none
    simp
  have h := (claim_C6_chairman_failure qChairmanFails "q" []).2.2.1 hne hnul
  rw [h]
  exact ⟨hne, rfl, rfl, rfl⟩

/-! ## Claim C9 -/

theorem string_length_take_le (s : String) (n : Nat) : (s.take n).length ≤ n := by
  show (s.take n).data.length ≤ n
  rw [String.data_take]
  simp

/-- C9: the title generator returns `"New Conversation"` on a failed
call; on success it returns the content stripped of surrounding
whitespace and then of surrounding quote characters, truncated to its
first 47 characters plus `"..."` whenever the stripped content is longer
than 50 characters; the returned title never exceeds 50 characters. -/
theorem claim_C9_title_generation (q : ChatOracle) (user_query : String) :
    (q TITLE_MODEL (title_messages user_query) = none →
      generate_conversation_title q user_query = "New Conversation") ∧
    (∀ r, q TITLE_MODEL (title_messages user_query) = some r →
      generate_conversation_title q user_query =
        (if (stripQuotes (pyStrip r.content)).length > 50 then
          (stripQuotes (pyStrip r.content)).take 47 ++ "..."
        else stripQuotes (pyStrip r.content)) ∧
      (50 < (stripQuotes (pyStrip r.content)).length →
        generate_conversation_title q user_query =
          (stripQuotes (pyStrip r.content)).take 47 ++ "...")) ∧
    (generate_conversation_title q user_query).length ≤ 50 := by
  refine ⟨fun h => by simp [generate_conversation_title, h], fun r h => ?_, ?_⟩
  · refine ⟨by simp [generate_conversation_title, h], fun hlen => ?_⟩
    simp only [generate_conversation_title, h]
    rw [if_pos (by omega)]
  · rcases hq : q TITLE_MODEL (title_messages user_query) with _ | r
    · simp only [generate_conversation_title, hq]
      decide
    · simp only [generate_conversation_title, hq]
      by_cases hl : (stripQuotes (pyStrip r.content)).length > 50
      · rw [if_pos hl]
        have h1 := string_length_take_le (stripQuotes (pyStrip r.content)) 47
        rw [String.length_append]
        have h3 : ("..." : String).length = 3 := rfl
        omega
      · rw [if_neg hl]
        omega

theorem claim_C9_title_generation_witness :
    generate_conversation_title qAllFail "q" = "New Conversation" ∧
    generate_conversation_title qLongTitle "q" =
      "aaaaaaaaaaaaaaaaaaaaaaaaaaaaaaaaaaaaaaaaaaaaaaa..." ∧
    (generate_conversation_title qLongTitle "q").length ≤ 50 := by
  refine ⟨(claim_C9_title_generation qAllFail "q").1 rfl, ?_, (claim_C9_title_generation qLongTitle "q").2.2⟩
  have h := ((claim_C9_title_generation qLongTitle "q").2.1
    ⟨" \"aaaaaaaaaaaaaaaaaaaaaaaaaaaaaaaaaaaaaaaaaaaaaaaaaaaaaaaaaaaa\" ", none, [], none⟩
    rfl).2 (by decide)
  rw [h]
  decide

/-! ## Claim C5 -/

theorem labelChar_toNat (i : Nat) (h : i < 26) : (labelChar i).toNat = 65 + i := by
  have hv : (65 + i).isValidChar := Or.inl (by omega)
  simp only [labelChar, Char.ofNat, hv, dif_pos]
  simp [Char.ofNatAux, Char.toNat, UInt32.toNat]

theorem labelChar_inj {i j : Nat} (hi : i < 26) (hj : j < 26)
    (h : labelChar i = labelChar j) : i = j := by
  have := congrArg Char.toNat h
  rw [labelChar_toNat i hi, labelChar_toNat j hj] at this
  omega

theorem labelKey_inj {i j : Nat} (hi : i < 26) (hj : j < 26)
    (h : "Response " ++ (labelChar i).toString = "Response " ++ (labelChar j).toString) :
    i = j := by
  refine labelChar_inj hi hj ?_
  have hd := congrArg String.data h
  simp only [String.data_append] at hd
  have hc := List.append_cancel_left hd
  have : (labelChar i).toString.data = [labelChar i] := rfl
  have h2 : (labelChar j).toString.data = [labelChar j] := rfl
  rw [this, h2] at hc
  exact List.head_eq_of_cons_eq hc

theorem assoc_lookup_getElem {β : Type} :
    ∀ (l : List (String × β)), ((l.map Prod.fst).Nodup) →
      ∀ (i : Nat) (h : i < l.length), l.lookup (l.get ⟨i, h⟩).1 = some (l.get ⟨i, h⟩).2
  | [], _, i, h => absurd h (by simp)
  | (k, b) :: es, hnd, 0, h => by simp [List.lookup]
  | (k, b) :: es, hnd, i + 1, h => by
    have hnd2 := hnd
    rw [List.map_cons, List.nodup_cons] at hnd2
    have hmem : ((es.get ⟨i, by simpa using h⟩).1) ∈ es.map Prod.fst :=
      List.mem_map_of_mem Prod.fst (es.get_mem _ _)
    have hne : ((es.get ⟨i, by simpa using h⟩).1) ≠ k := fun he => hnd2.1 (he ▸ hmem)
    have hbe : (((k, b) :: es).get ⟨i + 1, h⟩) = es.get ⟨i, by simpa using h⟩ := rfl
    rw [hbe]
    simp only [List.lookup, beq_eq_false_iff_ne.mpr hne]
    exact assoc_lookup_getElem es hnd2.2 i (by simpa using h)

theorem label_to_model_map_length (s1 : List Stage1Entry) :
    (label_to_model_map s1).length = s1.length := by
  simp [label_to_model_map, stage2_labels]

theorem label_to_model_map_keys (s1 : List Stage1Entry) :
    (label_to_model_map s1).map Prod.fst =
      (List.range s1.length).map fun i => "Response " ++ (labelChar i).toString := by
  have hlen : (stage2_labels s1.length).length = s1.length := by simp [stage2_labels]
  calc (label_to_model_map s1).map Prod.fst
      = ((stage2_labels s1.length).zip s1).map
          (fun lr => "Response " ++ lr.1.toString) := by
        simp [label_to_model_map, List.map_map]
    _ = (((stage2_labels s1.length).zip s1).map Prod.fst).map
          (fun c => "Response " ++ c.toString) := by
        simp [List.map_map]
    _ = (stage2_labels s1.length).map (fun c => "Response " ++ c.toString) := by
        rw [List.map_fst_zip _ _ (le_of_eq hlen)]
    _ = (List.range s1.length).map fun i => "Response " ++ (labelChar i).toString := by
        simp [stage2_labels, List.map_map]

theorem label_to_model_map_values (s1 : List Stage1Entry) :
    (label_to_model_map s1).map Prod.snd = s1.map Stage1Entry.model := by
  have hlen : (stage2_labels s1.length).length = s1.length := by simp [stage2_labels]
  calc (label_to_model_map s1).map Prod.snd
      = ((stage2_labels s1.length).zip s1).map (fun lr => lr.2.model) := by
        simp [label_to_model_map, List.map_map]
    _ = (((stage2_labels s1.length).zip s1).map Prod.snd).map Stage1Entry.model := by
        simp [List.map_map]
    _ = s1.map Stage1Entry.model := by
        rw [List.map_snd_zip _ _ (ge_of_eq hlen)]

theorem stage1_entries_models (q : ChatOracle) (msgs : List ChatMsg) :
    ∀ models : List String,
      (((models.map fun m => (m, q m msgs)).filterMap fun mr =>
          mr.2.map fun r =>
            ({ model := mr.1, response := r.content, response_id := r.id,
               usage := r.usage, finish_reason := r.finish_reason } : Stage1Entry)).map
        Stage1Entry.model) = models.filter fun m => (q m msgs).isSome
  | [] => rfl
  | m :: ms => by
    have ih := stage1_entries_models q msgs ms
    cases hq : q m msgs with
    | none =>
      simp only [List.map_cons, List.filterMap_cons, hq, Option.map_none']
      rw [List.filter_cons]
      simp only [hq, Option.isSome_none, Bool.false_eq_true, if_false]
      exact ih
    | some r =>
      simp only [List.map_cons, List.filterMap_cons, hq, Option.map_some']
      rw [List.filter_cons]
      simp only [hq, Option.isSome_some, if_true, List.map_cons]
      rw [ih]

theorem stage1_models_filter (q : ChatOracle) (user_query : String) :
    (stage1_collect_responses q user_query).map Stage1Entry.model =
      COUNCIL_MODELS.filter fun m => (q m (stage1_messages user_query)).isSome := by
  simpa [stage1_collect_responses, query_models_parallel] using
    stage1_entries_models q (stage1_messages user_query) COUNCIL_MODELS

theorem stage1_history_models_filter (q : ChatOracle) (user_query : String)
    (conversation_history : List ChatMsg) :
    (stage1_collect_responses_with_history q user_query conversation_history).map
        Stage1Entry.model =
      COUNCIL_MODELS.filter
        (fun m => (q m (stage1_history_messages user_query conversation_history)).isSome) := by
  simpa [stage1_collect_responses_with_history, query_models_parallel] using
    stage1_entries_models q (stage1_history_messages user_query conversation_history)
      COUNCIL_MODELS

/-- C5: for every non-empty Stage-1 result list (with distinct model
names and at most 26 members, as Stage 1 always produces — last
conjunct), the `label_to_model` map returned by both Stage-2 collectors
keys exactly `Response A`, `Response B`, … (in Stage-1 input order, all
distinct), sends the `i`-th key to the `i`-th Stage-1 model, and its
values list is exactly the Stage-1 model list, each model occurring
exactly once. -/
theorem claim_C5_label_bijection (q : ChatOracle) (user_query : String)
    (conversation_history : List ChatMsg) (s1 : List Stage1Entry)
    (_hne : s1 ≠ []) (hlen : s1.length ≤ 26)
    (hnd : (s1.map Stage1Entry.model).Nodup) :
    (stage2_collect_rankings q user_query s1).2 = label_to_model_map s1 ∧
    (stage2_collect_rankings_with_history q user_query s1 conversation_history).2 =
      label_to_model_map s1 ∧
    (label_to_model_map s1).map Prod.fst =
      ((List.range s1.length).map fun i => "Response " ++ (labelChar i).toString) ∧
    ((label_to_model_map s1).map Prod.fst).Nodup ∧
    (∀ (i : Nat) (h : i < s1.length),
      (label_to_model_map s1).lookup ("Response " ++ (labelChar i).toString) =
        some (s1.get ⟨i, h⟩).model) ∧
    (label_to_model_map s1).map Prod.snd = s1.map Stage1Entry.model ∧
    (∀ m ∈ s1.map Stage1Entry.model, ((label_to_model_map s1).map Prod.snd).count m = 1) ∧
    (∀ (q2 : ChatOracle) (uq2 : String) (hist2 : List ChatMsg),
      ((stage1_collect_responses q2 uq2).map Stage1Entry.model).Nodup ∧
      (stage1_collect_responses q2 uq2).length ≤ 26 ∧
      ((stage1_collect_responses_with_history q2 uq2 hist2).map Stage1Entry.model).Nodup ∧
      (stage1_collect_responses_with_history q2 uq2 hist2).length ≤ 26) := by
  have hkeys := label_to_model_map_keys s1
  have hknd : ((label_to_model_map s1).map Prod.fst).Nodup := by
    rw [hkeys]
    refine List.Nodup.map_on ?_ (List.nodup_range _)
    intro i hi j hj hij
    exact labelKey_inj (lt_of_lt_of_le (List.mem_range.mp hi) hlen)
      (lt_of_lt_of_le (List.mem_range.mp hj) hlen) hij
  refine ⟨rfl, rfl, hkeys, hknd, ?_, label_to_model_map_values s1, ?_, ?_⟩
  · intro i h
    have hl : i < (label_to_model_map s1).length := by rw [label_to_model_map_length]; exact h
    have hget : (label_to_model_map s1).get ⟨i, hl⟩ =
        ("Response " ++ (labelChar i).toString, (s1.get ⟨i, h⟩).model) := by
      simp only [label_to_model_map, List.get_eq_getElem, List.getElem_map, List.getElem_zip]
      congr 1
      simp [stage2_labels]
    have := assoc_lookup_getElem (label_to_model_map s1) hknd i hl
    rw [hget] at this
    exact this
  · intro m hm
    rw [label_to_model_map_values s1]
    exact List.count_eq_one_of_mem hnd hm
  · intro q2 uq2 hist2
    have hcouncil : COUNCIL_MODELS.Nodup := by decide
    refine ⟨?_, ?_, ?_, ?_⟩
    · rw [stage1_models_filter]
      exact hcouncil.filter _
    · have := congrArg List.length (stage1_models_filter q2 uq2)
      simp only [List.length_map] at this
      rw [this]
      calc (COUNCIL_MODELS.filter fun m => (q2 m (stage1_messages uq2)).isSome).length
          ≤ COUNCIL_MODELS.length := List.length_filter_le _ _
        _ ≤ 26 := by decide
    · rw [stage1_history_models_filter]
      exact hcouncil.filter _
    · have := congrArg List.length (stage1_history_models_filter q2 uq2 hist2)
      simp only [List.length_map] at this
      rw [this]
      calc (COUNCIL_MODELS.filter
            (fun m => (q2 m (stage1_history_messages uq2 hist2)).isSome)).length
          ≤ COUNCIL_MODELS.length := List.length_filter_le _ _
        _ ≤ 26 := by decide

theorem claim_C5_label_bijection_witness :
    (stage2_collect_rankings qAllFail "q" exampleStage1).2 = label_to_model_map exampleStage1 ∧
    (label_to_model_map exampleStage1).map Prod.fst = ["Response A", "Response B"] ∧
    (label_to_model_map exampleStage1).lookup "Response A" = some "m1" ∧
    (label_to_model_map exampleStage1).lookup "Response B" = some "m2" ∧
    (label_to_model_map exampleStage1).map Prod.snd = ["m1", "m2"] := by
  have h := claim_C5_label_bijection qAllFail "q" [] exampleStage1
    (by decide) (by decide) (by decide)
  refine ⟨h.1, ?_, ?_, ?_, ?_⟩
  · rw [h.2.2.1]; decide
  · have := h.2.2.2.2.1 0 (by decide)
    simpa using this
  · have := h.2.2.2.2.1 1 (by decide)
    simpa using this
  · rw [h.2.2.2.2.2.1]; decide

/-! ## Claims C2 and C3: parser lemmas -/

theorem respTokenAt?_nil : respTokenAt? [] = none := rfl

theorem respLit_length : respLit.length = 9 := rfl

theorem markerLit_length : markerLit.length = 14 := rfl

/-- A successful `Response [A-Z]` match at the head survives extending
the text on the right. -/
theorem respTokenAt?_append {u tok : List Char} (v : List Char)
    (h : respTokenAt? u = some tok) : respTokenAt? (u ++ v) = some tok := by
  unfold respTokenAt? at h ⊢
  by_cases hp : respLit.isPrefixOf u
  · rw [if_pos hp] at h
    have hpre : respLit <+: u := List.isPrefixOf_iff_prefix.mp hp
    have hlen : 9 ≤ u.length := by
      have := hpre.length_le
      rwa [respLit_length] at this
    have hp2 : respLit.isPrefixOf (u ++ v) :=
      List.isPrefixOf_iff_prefix.mpr (hpre.trans (List.prefix_append u v))
    rw [if_pos hp2, List.drop_append_of_le_length hlen]
    rcases hd : u.drop 9 with _ | ⟨c, cr⟩
    · rw [hd] at h
      exact absurd h (by simp)
    · rw [hd] at h
      by_cases hu : c.isUpper <;>
        simp only [List.cons_append, List.head?_cons, Option.some_bind, hu, if_true,
          if_false, Bool.false_eq_true, reduceIte] at h ⊢ <;>
        exact h
  · rw [if_neg hp] at h
    exact absurd h (by simp)

/-- If the scan found nothing, no position carries a match. -/
theorem findResponseTokens_nil_all : ∀ (cs : List Char), findResponseTokens cs = [] →
    ∀ k, respTokenAt? (cs.drop k) = none
  | [], _, k => by
    rw [List.drop_nil]
    exact respTokenAt?_nil
  | c :: rest, h, k => by
    rw [findResponseTokens_cons] at h
    rcases hr : respTokenAt? (c :: rest) with _ | tok <;> rw [hr] at h
    · rcases k with _ | k
      · exact hr
      · exact findResponseTokens_nil_all rest h k
    · simp at h

/-- A non-empty scan yields a match at some position. -/
theorem findResponseTokens_ne_nil_pos : ∀ (s : List Char), findResponseTokens s ≠ [] →
    ∃ k tok, k < s.length ∧ respTokenAt? (s.drop k) = some tok
  | [], h => absurd rfl h
  | c :: rest, h => by
    rw [findResponseTokens_cons] at h
    rcases hr : respTokenAt? (c :: rest) with _ | tok <;> rw [hr] at h
    · obtain ⟨k, tok, hk, htok⟩ := findResponseTokens_ne_nil_pos rest h
      exact ⟨k + 1, tok, by simpa using Nat.succ_lt_succ hk, htok⟩
    · exact ⟨0, tok, by simp, hr⟩

/-- A numbered match contains a `Response [A-Z]` match at the position
right after its digits, dot and whitespace. -/
theorem numberedTokenAt?_token_pos : ∀ {s tok : List Char} {n : Nat},
    numberedTokenAt? s = some (tok, n) →
    ∃ k, k < s.length ∧ respTokenAt? (s.drop k) = some tok := by
  intro s tok n h
  unfold numberedTokenAt? at h
  dsimp only at h
  split at h
  · exact absurd h (by simp)
  · split at h
    next r2 heq =>
      split at h
      next tok2 htok =>
        simp only [Option.some.injEq, Prod.mk.injEq] at h
        obtain ⟨htokeq, -⟩ := h
        subst htokeq
        refine ⟨(s.takeWhile Char.isDigit).length + 1 + (r2.takeWhile isPySpace).length, ?_, ?_⟩
        · by_contra hge
          have hle : s.length ≤
              (s.takeWhile Char.isDigit).length + 1 + (r2.takeWhile isPySpace).length := by
            omega
          have hnil : s.drop ((s.takeWhile Char.isDigit).length + 1 +
              (r2.takeWhile isPySpace).length) = [] := List.drop_eq_nil_iff.mpr hle
          have hr2 : s.drop ((s.takeWhile Char.isDigit).length + 1 +
              (r2.takeWhile isPySpace).length) = r2.drop ((r2.takeWhile isPySpace).length) := by
            rw [← List.drop_drop, ← List.drop_drop, heq]
            rfl
          rw [hr2] at hnil
          rw [hnil] at htok
          exact absurd htok (by rw [respTokenAt?_nil]; simp)
        · have hr2 : s.drop ((s.takeWhile Char.isDigit).length + 1 +
              (r2.takeWhile isPySpace).length) = r2.drop ((r2.takeWhile isPySpace).length) := by
            rw [← List.drop_drop, ← List.drop_drop, heq]
            rfl
          rw [hr2]
          exact htok
      next => exact absurd h (by simp)
    next => exact absurd h (by simp)

/-- A non-empty numbered scan yields a `Response [A-Z]` match at some
position. -/
theorem findNumberedTokens_ne_nil_pos : ∀ (s : List Char), findNumberedTokens s ≠ [] →
    ∃ k tok, k < s.length ∧ respTokenAt? (s.drop k) = some tok
  | [], h => absurd rfl h
  | c :: rest, h => by
    rw [findNumberedTokens_cons] at h
    rcases hr : numberedTokenAt? (c :: rest) with _ | ⟨tok, n⟩ <;> rw [hr] at h
    · obtain ⟨k, tok, hk, htok⟩ := findNumberedTokens_ne_nil_pos rest h
      exact ⟨k + 1, tok, by simpa using Nat.succ_lt_succ hk, htok⟩
    · obtain ⟨k, hk, htok⟩ := numberedTokenAt?_token_pos hr
      exact ⟨k, tok, hk, htok⟩

/-- Wherever a text decomposes as `pre ++ seg ++ post`, a token-free text
forces both scans of `seg` to be empty. -/
theorem tokens_nil_of_infix {full pre seg post : List Char}
    (h : findResponseTokens full = []) (he : full = pre ++ (seg ++ post)) :
    findResponseTokens seg = [] ∧ findNumberedTokens seg = [] := by
  have key : ∀ k tok, k < seg.length → respTokenAt? (seg.drop k) = some tok → False := by
    intro k tok hk htok
    have htrans : respTokenAt? (full.drop (pre.length + k)) = some tok := by
      rw [he]
      have hdrop : (pre ++ (seg ++ post)).drop (pre.length + k) = (seg ++ post).drop k := by
        simp [List.drop_append]
      rw [hdrop, List.drop_append_of_le_length (le_of_lt hk)]
      exact respTokenAt?_append post htok
    rw [findResponseTokens_nil_all full h (pre.length + k)] at htrans
    cases htrans
  constructor
  · by_contra hne
    obtain ⟨k, tok, hk, htok⟩ := findResponseTokens_ne_nil_pos seg hne
    exact key k tok hk htok
  · by_contra hne
    obtain ⟨k, tok, hk, htok⟩ := findNumberedTokens_ne_nil_pos seg hne
    exact key k tok hk htok

/-- `afterMarker?` succeeds exactly behind a marker occurrence. -/
theorem afterMarker?_decomp : ∀ (cs : List Char) {tail : List Char},
    afterMarker? cs = some tail → ∃ pre, cs = pre ++ markerLit ++ tail
  | [], _, h => absurd h (by rw [afterMarker?]; simp)
  | c :: rest, tail, h => by
    rw [afterMarker?] at h
    by_cases hp : markerLit.isPrefixOf (c :: rest)
    · rw [if_pos hp] at h
      obtain ⟨t, ht⟩ := List.isPrefixOf_iff_prefix.mp hp
      have h14 : (c :: rest).drop 14 = t := by
        rw [← ht, ← markerLit_length, List.drop_left]
      simp only [Option.some.injEq] at h
      refine ⟨[], ?_⟩
      rw [List.nil_append, ← ht, ← h, h14]
    · rw [if_neg hp] at h
      obtain ⟨pre, hpre⟩ := afterMarker?_decomp rest h
      exact ⟨c :: pre, by simp [hpre]⟩

/-- `upToMarker` is a prefix, cut exactly at the next marker occurrence
(or at the end). -/
theorem upToMarker_decomp : ∀ (cs : List Char),
    ∃ post, cs = upToMarker cs ++ post ∧ (post = [] ∨ markerLit.isPrefixOf post)
  | [] => ⟨[], by simp [upToMarker], Or.inl rfl⟩
  | c :: rest => by
    rw [upToMarker]
    by_cases hp : markerLit.isPrefixOf (c :: rest)
    · rw [if_pos hp]
      exact ⟨c :: rest, by simp, Or.inr hp⟩
    · rw [if_neg hp]
      obtain ⟨post, hpost, hor⟩ := upToMarker_decomp rest
      exact ⟨post, by simpa using hpost, hor⟩

theorem upToMarker_prefix (cs : List Char) : upToMarker cs <+: cs := by
  obtain ⟨post, hpost, -⟩ := upToMarker_decomp cs
  exact ⟨post, hpost.symm⟩

/-- The section between two marker occurrences contains no marker. -/
theorem afterMarker?_upToMarker : ∀ (cs : List Char), afterMarker? (upToMarker cs) = none
  | [] => rfl
  | c :: rest => by
    rw [upToMarker]
    by_cases hp : markerLit.isPrefixOf (c :: rest)
    · rw [if_pos hp]
      rfl
    · rw [if_neg hp, afterMarker?]
      have hnp : ¬ markerLit.isPrefixOf (c :: upToMarker rest) := by
        intro hcontra
        apply hp
        have h1 : markerLit <+: c :: upToMarker rest := List.isPrefixOf_iff_prefix.mp hcontra
        have h2 : (c :: upToMarker rest) <+: (c :: rest) := by
          obtain ⟨t, ht⟩ := upToMarker_prefix rest
          exact ⟨t, by simp [ht]⟩
        exact List.isPrefixOf_iff_prefix.mpr (h1.trans h2)
      rw [if_neg hnp]
      exact afterMarker?_upToMarker rest

/-- C2: the parser follows the stated priority order — with the marker
present, the numbered matches of the marker-delimited section (all of
them, in appearance order) win when any exist, otherwise all `Response
<Letter>` tokens of that section; with no marker, all tokens of the
whole text; and a text with no token anywhere parses to `[]`.  The two
concrete examples of the specification evaluate as stated. -/
theorem claim_C2_parser_priority (text : String) :
    (∀ tail, afterMarker? text.data = some tail →
      (findNumberedTokens (upToMarker tail) ≠ [] →
        parse_ranking_from_text text =
          (findNumberedTokens (upToMarker tail)).map fun t => String.mk t) ∧
      (findNumberedTokens (upToMarker tail) = [] →
        parse_ranking_from_text text =
          (findResponseTokens (upToMarker tail)).map fun t => String.mk t)) ∧
    (afterMarker? text.data = none →
      parse_ranking_from_text text = (findResponseTokens text.data).map fun t => String.mk t) ∧
    (findResponseTokens text.data = [] → parse_ranking_from_text text = []) ∧
    parse_ranking_from_text "FINAL RANKING:\n1. Response C\n2. Response A" =
      ["Response C", "Response A"] ∧
    parse_ranking_from_text "I think Response B wins ... but Response A is close" =
      ["Response B", "Response A"] := by
  refine ⟨fun tail h => ⟨fun hne => ?_, fun heq => ?_⟩, fun h => ?_, fun h0 => ?_,
    by decide, by decide⟩
  · simp only [parse_ranking_from_text, h]
    rw [if_neg (by simpa [List.isEmpty_iff] using hne)]
  · simp only [parse_ranking_from_text, h]
    rw [if_pos (by simpa [List.isEmpty_iff] using heq)]
  · simp only [parse_ranking_from_text, h]
  · rcases ha : afterMarker? text.data with _ | tail
    · simp only [parse_ranking_from_text, ha, h0, List.map_nil]
    · obtain ⟨pre, hpre⟩ := afterMarker?_decomp text.data ha
      obtain ⟨post, hpost, -⟩ := upToMarker_decomp tail
      have hfull : text.data = (pre ++ markerLit) ++ (upToMarker tail ++ post) := by
        rw [hpre, List.append_assoc]
        conv_lhs => rw [hpost]
        rw [List.append_assoc]
      obtain ⟨hseg, hnum⟩ := tokens_nil_of_infix h0 hfull
      simp only [parse_ranking_from_text, ha]
      rw [if_pos (by simp [hnum]), hseg, List.map_nil]

theorem claim_C2_parser_priority_witness :
    parse_ranking_from_text "FINAL RANKING:\n1. Response C\n2. Response A" =
      ["Response C", "Response A"] ∧
    parse_ranking_from_text "I think Response B wins ... but Response A is close" =
      ["Response B", "Response A"] ∧
    parse_ranking_from_text "FINAL RANKING:\nResponse B then Response C" =
      ["Response B", "Response C"] ∧
    parse_ranking_from_text "nothing here" = [] := by
  refine ⟨(claim_C2_parser_priority "x").2.2.2.1, (claim_C2_parser_priority "x").2.2.2.2, ?_, ?_⟩
  · have h := ((claim_C2_parser_priority "FINAL RANKING:\nResponse B then Response C").1
      ("\nResponse B then Response C").data (by decide)).2 (by decide)
    rw [h]
    decide
  · exact (claim_C2_parser_priority "nothing here").2.2.1 (by decide)

/-- C3 counterexample: with the marker occurring twice, the parser reads
only the text between the two occurrences.  On the claim's reading (the
whole text after the first occurrence) this input must parse to
`["Response A"]`; the code returns `[]`. -/
theorem claim_C3_marker_section_cex :
    parse_ranking_spec "FINAL RANKING:FINAL RANKING:Response A" = ["Response A"] ∧
    parse_ranking_from_text "FINAL RANKING:FINAL RANKING:Response A" = [] ∧
    parse_ranking_from_text "FINAL RANKING:FINAL RANKING:Response A" ≠
      parse_ranking_spec "FINAL RANKING:FINAL RANKING:Response A" := by
  refine ⟨by decide, by decide, by decide⟩

/-- C3 (amended): when the marker occurs, the parser operates on the
segment strictly between the first marker occurrence and the next one
(the second field of Python's `split`) — that segment lies after a
marker occurrence, contains no marker itself, extends to the next
occurrence or the end, and the result is exactly the step-2/step-3
extraction applied to it (so no token before the first marker appears,
and tokens after a second occurrence are ignored). -/
theorem claim_C3_amended_marker_section (text : String) (tail : List Char)
    (h : afterMarker? text.data = some tail) :
    (∃ pre, text.data = pre ++ markerLit ++ tail) ∧
    (∃ post, tail = upToMarker tail ++ post ∧ (post = [] ∨ markerLit.isPrefixOf post)) ∧
    afterMarker? (upToMarker tail) = none ∧
    parse_ranking_from_text text =
      (if (findNumberedTokens (upToMarker tail)).isEmpty then
        (findResponseTokens (upToMarker tail)).map fun t => String.mk t
      else (findNumberedTokens (upToMarker tail)).map fun t => String.mk t) := by
  refine ⟨afterMarker?_decomp text.data h, upToMarker_decomp tail,
    afterMarker?_upToMarker tail, ?_⟩
  simp only [parse_ranking_from_text, h]

theorem claim_C3_amended_marker_section_witness :
    afterMarker? ("FINAL RANKING:FINAL RANKING:Response A").data =
      some ("FINAL RANKING:Response A").data ∧
    parse_ranking_from_text "FINAL RANKING:FINAL RANKING:Response A" =
      (if (findNumberedTokens (upToMarker ("FINAL RANKING:Response A").data)).isEmpty then
        (findResponseTokens (upToMarker ("FINAL RANKING:Response A").data)).map
          fun t => String.mk t
      else (findNumberedTokens (upToMarker ("FINAL RANKING:Response A").data)).map
        fun t => String.mk t) ∧
    afterMarker? (upToMarker ("FINAL RANKING:Response A").data) = none := by
  have h := claim_C3_amended_marker_section "FINAL RANKING:FINAL RANKING:Response A"
    ("FINAL RANKING:Response A").data (by decide)
  exact ⟨by decide, h.2.2.2, h.2.2.1⟩

/-! ## Claim C7 -/

/-- C7 counterexample: with recency limit `0` and summarization
disabled, a one-pair history is returned whole — the claim requires the
most recent `0` pairs, i.e. `[]` — because Python's `history[-0:]` slice
is the entire list. -/
theorem claim_C7_limit_zero_cex :
    build_conversation_context (fun _ => .ok "S") [⟨"user", "q"⟩, ⟨"assistant", "a"⟩]
        (some 0) false = [⟨"user", "q"⟩, ⟨"assistant", "a"⟩] ∧
    build_conversation_context (fun _ => .ok "S") [⟨"user", "q"⟩, ⟨"assistant", "a"⟩]
        (some 0) false ≠ [] := by
  refine ⟨by decide, by decide⟩

/-- C7 (amended to positive limits): for every history of `P` pairs and
recency limit `L ≥ 1` — at `L = 0` with summarization disabled the code
returns the entire history, because Python's `[-0:]` slice is the whole
list — the context builder returns the history unchanged when `P ≤ L`;
the most recent `L` pairs when `P > L` with summarization disabled; one
synthetic system summary message followed by the most recent `L` pairs
when summarization succeeds; and the most recent `L + 5` pairs when
summarization raises. -/
theorem claim_C7_context_builder (summarize : List ChatMsg → Except Unit String)
    (history : List ChatMsg) (L P : Nat) (hP : history.length = 2 * P) (hL : 1 ≤ L) :
    (∀ so : Bool, P ≤ L →
      build_conversation_context summarize history (some (L : Int)) so = history) ∧
    (L < P → build_conversation_context summarize history (some (L : Int)) false =
      history.drop (history.length - 2 * L)) ∧
    (∀ s, L < P → summarize (history.take (history.length - 2 * L)) = .ok s →
      build_conversation_context summarize history (some (L : Int)) true =
        ⟨"system", "Previous conversation summary: " ++ s⟩ ::
          history.drop (history.length - 2 * L)) ∧
    (∀ e, L < P → summarize (history.take (history.length - 2 * L)) = .error e →
      build_conversation_context summarize history (some (L : Int)) true =
        history.drop (history.length - 2 * (L + 5))) := by
  refine ⟨fun so hPL => ?_, fun hLP => ?_, fun s hLP hs => ?_, fun e hLP hs => ?_⟩
  · unfold build_conversation_context
    dsimp only
    rw [if_pos (by omega)]
  · unfold build_conversation_context
    dsimp only
    rw [if_neg (by omega)]
    rw [if_pos (by simp)]
    unfold pySliceFrom
    rw [if_pos (by omega)]
    congr 1
    omega
  · unfold build_conversation_context
    dsimp only
    rw [if_neg (by omega), if_neg (by simp), if_neg (by omega)]
    have htake : (((history.length : Int) - (L : Int) * 2).toNat) =
        history.length - 2 * L := by omega
    rw [htake]
    have hne : (history.take (history.length - 2 * L)).isEmpty = false := by
      rw [List.isEmpty_eq_false_iff_exists_mem]
      have hlen : (history.take (history.length - 2 * L)).length = history.length - 2 * L := by
        rw [List.length_take]
        omega
      have hpos : 0 < (history.take (history.length - 2 * L)).length := by omega
      exact ⟨_, List.getElem_mem hpos⟩
    rw [if_neg (by simp [hne]), hs]
  · unfold build_conversation_context
    dsimp only
    rw [if_neg (by omega), if_neg (by simp), if_neg (by omega)]
    have htake : (((history.length : Int) - (L : Int) * 2).toNat) =
        history.length - 2 * L := by omega
    rw [htake]
    have hne : (history.take (history.length - 2 * L)).isEmpty = false := by
      rw [List.isEmpty_eq_false_iff_exists_mem]
      have hlen : (history.take (history.length - 2 * L)).length = history.length - 2 * L := by
        rw [List.length_take]
        omega
      have hpos : 0 < (history.take (history.length - 2 * L)).length := by omega
      exact ⟨_, List.getElem_mem hpos⟩
    rw [if_neg (by simp [hne])]
    simp only [hs]
    unfold pySliceFrom
    rw [if_pos (by omega)]
    congr 1
    omega

theorem claim_C7_context_builder_witness :
    build_conversation_context (fun _ => .ok "S")
        [⟨"user", "q1"⟩, ⟨"assistant", "a1"⟩] (some 10) true =
      [⟨"user", "q1"⟩, ⟨"assistant", "a1"⟩] ∧
    build_conversation_context (fun _ => .ok "S")
        [⟨"user", "q1"⟩, ⟨"assistant", "a1"⟩, ⟨"user", "q2"⟩, ⟨"assistant", "a2"⟩]
        (some 1) false = [⟨"user", "q2"⟩, ⟨"assistant", "a2"⟩] ∧
    build_conversation_context (fun _ => .ok "S")
        [⟨"user", "q1"⟩, ⟨"assistant", "a1"⟩, ⟨"user", "q2"⟩, ⟨"assistant", "a2"⟩]
        (some 1) true =
      [⟨"system", "Previous conversation summary: S"⟩, ⟨"user", "q2"⟩, ⟨"assistant", "a2"⟩] ∧
    build_conversation_context (fun _ => .error ())
        [⟨"user", "q1"⟩, ⟨"assistant", "a1"⟩, ⟨"user", "q2"⟩, ⟨"assistant", "a2"⟩]
        (some 1) true =
      [⟨"user", "q1"⟩, ⟨"assistant", "a1"⟩, ⟨"user", "q2"⟩, ⟨"assistant", "a2"⟩] := by
  have h1 := (claim_C7_context_builder (fun _ => .ok "S")
    [⟨"user", "q1"⟩, ⟨"assistant", "a1"⟩] 10 1 rfl (by omega)).1 true (by omega)
  have h2 := (claim_C7_context_builder (fun _ => .ok "S")
    [⟨"user", "q1"⟩, ⟨"assistant", "a1"⟩, ⟨"user", "q2"⟩, ⟨"assistant", "a2"⟩] 1 2
    rfl (by omega)).2.1 (by omega)
  have h3 := (claim_C7_context_builder (fun _ => .ok "S")
    [⟨"user", "q1"⟩, ⟨"assistant", "a1"⟩, ⟨"user", "q2"⟩, ⟨"assistant", "a2"⟩] 1 2
    rfl (by omega)).2.2.1 "S" (by omega) rfl
  have h4 := (claim_C7_context_builder (fun _ => .error ())
    [⟨"user", "q1"⟩, ⟨"assistant", "a1"⟩, ⟨"user", "q2"⟩, ⟨"assistant", "a2"⟩] 1 2
    rfl (by omega)).2.2.2 () (by omega) rfl
  exact ⟨h1, h2.trans (by decide), h3.trans (by decide), h4.trans (by decide)⟩

/-! ## Claim C8 -/

theorem trySummarizeModels_first_success (q : SummaryOracle) (msgs : List ChatMsg) :
    ∀ (pre : List String) (model : String) (post : List String) (r : PyResponse),
      (∀ m ∈ pre, attemptFails q msgs m) →
      q model msgs = .ok (some r) → r.content ≠ "" →
      trySummarizeModels q msgs (pre ++ model :: post) = some (pyStrip r.content)
  | [], model, post, r, _, hq, hc => by
    simp only [List.nil_append, trySummarizeModels, hq]
    rw [if_neg hc]
  | m :: pre, model, post, r, hfail, hq, hc => by
    have hm := hfail m (by simp)
    have ih := trySummarizeModels_first_success q msgs pre model post r
      (fun m' hm' => hfail m' (by simp [hm'])) hq hc
    simp only [List.cons_append, trySummarizeModels]
    rcases hqm : q m msgs with e | o
    · exact ih
    · rcases o with _ | r2
      · exact ih
      · exact (if_pos (hm r2 hqm)).trans ih

theorem trySummarizeModels_all_fail (q : SummaryOracle) (msgs : List ChatMsg) :
    ∀ (models : List String), (∀ m ∈ models, attemptFails q msgs m) →
      trySummarizeModels q msgs models = none
  | [], _ => rfl
  | m :: ms, hfail => by
    have ih := trySummarizeModels_all_fail q msgs ms (fun m' hm' => hfail m' (by simp [hm']))
    simp only [trySummarizeModels]
    rcases hqm : q m msgs with e | o
    · exact ih
    · rcases o with _ | r2
      · exact ih
      · exact (if_pos (hfail m (by simp) r2 hqm)).trans ih

/-- C8 counterexample: the summarizer returns the first successful
non-empty content *stripped of surrounding whitespace*, not the content
itself: with the first model succeeding with `" hi "`, the result is
`"hi"`, not `" hi "` as the claim states. -/
theorem claim_C8_summarizer_strip_cex :
    qSummaryPadded SUMMARIZATION_MODEL (summary_messages []) =
      .ok (some ⟨" hi ", none, [], none⟩) ∧
    summarize_conversation_segment qSummaryPadded [] = "hi" ∧
    summarize_conversation_segment qSummaryPadded [] ≠ " hi " := by
  refine ⟨rfl, by decide, by decide⟩

/-- C8 (amended): the summarizer tries the primary model and the
fallback models strictly in order and returns the first successful
non-empty content, stripped of surrounding whitespace; when every model
in the chain fails — raises, returns null, or returns empty content —
it returns the deterministic fixed-form summary built from the source
text of at most the first five messages, each truncated to its first 50
characters with `"..."` appended when longer.  Being a total function,
it returns a string on every input. -/
theorem claim_C8_summarizer_chain (q : SummaryOracle) (messages : List ChatMsg) :
    (∀ (pre : List String) (model : String) (post : List String) (r : PyResponse),
      models_to_try = pre ++ model :: post →
      (∀ m ∈ pre, attemptFails q (summary_messages messages) m) →
      q model (summary_messages messages) = .ok (some r) → r.content ≠ "" →
      summarize_conversation_segment q messages = pyStrip r.content) ∧
    ((∀ m ∈ models_to_try, attemptFails q (summary_messages messages) m) →
      summarize_conversation_segment q messages =
        "Conversation covers: " ++ String.intercalate ", " ((messages.take 5).map fun m =>
          if m.content.length > 50 then m.content.take 50 ++ "..." else m.content)) := by
  constructor
  · intro pre model post r hchain hfail hq hc
    unfold summarize_conversation_segment
    rw [hchain, trySummarizeModels_first_success q (summary_messages messages)
      pre model post r hfail hq hc]
  · intro hfail
    unfold summarize_conversation_segment
    rw [trySummarizeModels_all_fail q (summary_messages messages) models_to_try hfail]
    rfl

theorem claim_C8_summarizer_chain_witness :
    summarize_conversation_segment qSummarySecond [⟨"user", "q1"⟩] = "a summary" ∧
    summarize_conversation_segment qSummaryRaise
        [⟨"user", "q1"⟩, ⟨"assistant", "a1"⟩] =
      "Conversation covers: q1, a1" := by
  constructor
  · have h := (claim_C8_summarizer_chain qSummarySecond [⟨"user", "q1"⟩]).1
      ["gemini-2.5-flash"] "openai/gpt-4o-mini" ["anthropic/claude-haiku"]
      ⟨"  a summary  ", none, [], none⟩ rfl
      (by
        intro m hm r hr
        simp only [List.mem_singleton] at hm
        subst hm
        rw [show qSummarySecond "gemini-2.5-flash"
          (summary_messages [⟨"user", "q1"⟩]) = .ok none from rfl] at hr
        exact absurd hr (by simp))
      rfl (by decide)
    rw [h]
    decide
  · have h := (claim_C8_summarizer_chain qSummaryRaise
      [⟨"user", "q1"⟩, ⟨"assistant", "a1"⟩]).2
      (by
        intro m _ r hr
        rw [show qSummaryRaise m (summary_messages
          [⟨"user", "q1"⟩, ⟨"assistant", "a1"⟩]) = .error () from rfl] at hr
        exact absurd hr (by simp))
    rw [h]
    decide

/-! ## Claim C10 -/

/-- The history loop with a positive limit emits exactly the first
`limit - count` remaining exchanges. -/
theorem historyLoop_take : ∀ (msgs : List StoredMsg) (count limit : Int),
    0 ≤ count → count < limit →
    historyLoop msgs count (some limit) =
      (((specExchanges msgs).take (limit - count).toNat).map exchangeMsgs).flatten
  | [], count, limit, _, _ => by
    simp [historyLoop, specExchanges]
  | .assistant s3 :: rest, count, limit, h0, h1 => by
    rw [show historyLoop (.assistant s3 :: rest) count (some limit) =
      historyLoop rest count (some limit) from rfl]
    rw [show specExchanges (.assistant s3 :: rest) = specExchanges rest from rfl]
    exact historyLoop_take rest count limit h0 h1
  | .user c :: .assistant (some ⟨some resp⟩) :: r2, count, limit, h0, h1 => by
    rw [show historyLoop (.user c :: .assistant (some ⟨some resp⟩) :: r2) count (some limit) =
      (if limitReached (some limit) (count + 1) then [⟨"user", c⟩, ⟨"assistant", resp⟩]
       else ⟨"user", c⟩ :: ⟨"assistant", resp⟩ ::
         historyLoop r2 (count + 1) (some limit)) from rfl]
    rw [show specExchanges (.user c :: .assistant (some ⟨some resp⟩) :: r2) =
      (c, some resp) :: specExchanges r2 from rfl]
    by_cases hlim : limit ≤ count + 1
    · have hreach : limitReached (some limit) (count + 1) = true := by
        simp only [limitReached, Bool.and_eq_true, decide_eq_true_eq, ne_eq]
        omega
      rw [if_pos hreach]
      have ht : (limit - count).toNat = 1 := by omega
      rw [ht]
      rfl
    · have hreach : limitReached (some limit) (count + 1) = false := by
        simp only [limitReached, Bool.and_eq_false_iff, decide_eq_false_iff_not, ne_eq]
        omega
      rw [if_neg (by simp [hreach])]
      have ht : (limit - count).toNat = (limit - (count + 1)).toNat + 1 := by omega
      rw [ht, List.take_succ_cons, List.map_cons, List.flatten_cons]
      rw [historyLoop_take r2 (count + 1) limit (by omega) (by omega)]
      rfl
  | .user c :: [], count, limit, h0, h1 => by
    rw [show historyLoop (.user c :: []) count (some limit) =
      (if limitReached (some limit) (count + 1) then [⟨"user", c⟩]
       else ⟨"user", c⟩ :: historyLoop [] (count + 1) (some limit)) from rfl]
    rw [show specExchanges (.user c :: []) = [(c, none)] from rfl]
    have ht : 1 ≤ (limit - count).toNat := by omega
    have hts : List.take (limit - count).toNat [(c, (none : Option String))] = [(c, none)] := by
      apply List.take_of_length_le
      simpa using ht
    rw [hts]
    by_cases hlim : limit ≤ count + 1
    · have hreach : limitReached (some limit) (count + 1) = true := by
        simp only [limitReached, Bool.and_eq_true, decide_eq_true_eq, ne_eq]
        omega
      rw [if_pos hreach]
      rfl
    · have hreach : limitReached (some limit) (count + 1) = false := by
        simp only [limitReached, Bool.and_eq_false_iff, decide_eq_false_iff_not, ne_eq]
        omega
      rw [if_neg (by simp [hreach])]
      rfl
  | .user c :: .user c2 :: r2, count, limit, h0, h1 => by
    rw [show historyLoop (.user c :: .user c2 :: r2) count (some limit) =
      (if limitReached (some limit) (count + 1) then [⟨"user", c⟩]
       else ⟨"user", c⟩ :: historyLoop (.user c2 :: r2) (count + 1) (some limit)) from rfl]
    rw [show specExchanges (.user c :: .user c2 :: r2) =
      (c, none) :: specExchanges (.user c2 :: r2) from rfl]
    by_cases hlim : limit ≤ count + 1
    · have hreach : limitReached (some limit) (count + 1) = true := by
        simp only [limitReached, Bool.and_eq_true, decide_eq_true_eq, ne_eq]
        omega
      rw [if_pos hreach]
      have ht : (limit - count).toNat = 1 := by omega
      rw [ht]
      rfl
    · have hreach : limitReached (some limit) (count + 1) = false := by
        simp only [limitReached, Bool.and_eq_false_iff, decide_eq_false_iff_not, ne_eq]
        omega
      rw [if_neg (by simp [hreach])]
      have ht : (limit - count).toNat = (limit - (count + 1)).toNat + 1 := by omega
      rw [ht, List.take_succ_cons, List.map_cons, List.flatten_cons]
      rw [historyLoop_take (.user c2 :: r2) (count + 1) limit (by omega) (by omega)]
      rfl
  | .user c :: .assistant none :: r2, count, limit, h0, h1 => by
    rw [show historyLoop (.user c :: .assistant none :: r2) count (some limit) =
      (if limitReached (some limit) (count + 1) then [⟨"user", c⟩]
       else ⟨"user", c⟩ :: historyLoop (.assistant none :: r2) (count + 1) (some limit))
        from rfl]
    rw [show specExchanges (.user c :: .assistant none :: r2) =
      (c, none) :: specExchanges (.assistant none :: r2) from rfl]
    by_cases hlim : limit ≤ count + 1
    · have hreach : limitReached (some limit) (count + 1) = true := by
        simp only [limitReached, Bool.and_eq_true, decide_eq_true_eq, ne_eq]
        omega
      rw [if_pos hreach]
      have ht : (limit - count).toNat = 1 := by omega
      rw [ht]
      rfl
    · have hreach : limitReached (some limit) (count + 1) = false := by
        simp only [limitReached, Bool.and_eq_false_iff, decide_eq_false_iff_not, ne_eq]
        omega
      rw [if_neg (by simp [hreach])]
      have ht : (limit - count).toNat = (limit - (count + 1)).toNat + 1 := by omega
      rw [ht, List.take_succ_cons, List.map_cons, List.flatten_cons]
      rw [historyLoop_take (.assistant none :: r2) (count + 1) limit (by omega) (by omega)]
      rfl
  | .user c :: .assistant (some ⟨none⟩) :: r2, count, limit, h0, h1 => by
    rw [show historyLoop (.user c :: .assistant (some ⟨none⟩) :: r2) count (some limit) =
      (if limitReached (some limit) (count + 1) then [⟨"user", c⟩]
       else ⟨"user", c⟩ ::
         historyLoop (.assistant (some ⟨none⟩) :: r2) (count + 1) (some limit)) from rfl]
    rw [show specExchanges (.user c :: .assistant (some ⟨none⟩) :: r2) =
      (c, none) :: specExchanges (.assistant (some ⟨none⟩) :: r2) from rfl]
    by_cases hlim : limit ≤ count + 1
    · have hreach : limitReached (some limit) (count + 1) = true := by
        simp only [limitReached, Bool.and_eq_true, decide_eq_true_eq, ne_eq]
        omega
      rw [if_pos hreach]
      have ht : (limit - count).toNat = 1 := by omega
      rw [ht]
      rfl
    · have hreach : limitReached (some limit) (count + 1) = false := by
        simp only [limitReached, Bool.and_eq_false_iff, decide_eq_false_iff_not, ne_eq]
        omega
      rw [if_neg (by simp [hreach])]
      have ht : (limit - count).toNat = (limit - (count + 1)).toNat + 1 := by omega
      rw [ht, List.take_succ_cons, List.map_cons, List.flatten_cons]
      rw [historyLoop_take (.assistant (some ⟨none⟩) :: r2) (count + 1) limit
        (by omega) (by omega)]
      rfl

/-- C10: with a positive limit, `get_conversation_history` returns the
`(user, assistant-stage3)` entries of the *first* `limit` exchanges in
stored (oldest-first) order — truncation drops the most recent
exchanges — and a user message not followed by an assistant message
carrying a `stage3["response"]` contributes a lone user entry (all
encoded by `specExchanges`/`exchangeMsgs`). -/
theorem claim_C10_history_truncation (messages : List StoredMsg) (limit : Int)
    (hpos : 0 < limit) :
    get_conversation_history_messages messages (some limit) =
      (((specExchanges messages).take limit.toNat).map exchangeMsgs).flatten ∧
    ((specExchanges messages).length ≤ limit.toNat →
      get_conversation_history_messages messages (some limit) =
        ((specExchanges messages).map exchangeMsgs).flatten) := by
  have h := historyLoop_take messages 0 limit (le_refl 0) hpos
  have h0 : (limit - 0).toNat = limit.toNat := by omega
  rw [h0] at h
  refine ⟨h, fun hle => ?_⟩
  rw [get_conversation_history_messages, h, List.take_of_length_le hle]

theorem claim_C10_history_truncation_witness :
    get_conversation_history_messages
        [.user "q1", .assistant (some ⟨some "a1"⟩), .user "q2", .assistant none,
         .user "q3", .assistant (some ⟨none⟩), .user "q4", .assistant (some ⟨some "a4"⟩)]
        (some 2) =
      [⟨"user", "q1"⟩, ⟨"assistant", "a1"⟩, ⟨"user", "q2"⟩] ∧
    get_conversation_history_messages
        [.user "q1", .assistant (some ⟨some "a1"⟩), .user "q2", .assistant none]
        (some 10) =
      [⟨"user", "q1"⟩, ⟨"assistant", "a1"⟩, ⟨"user", "q2"⟩] := by
  constructor
  · have h := (claim_C10_history_truncation
      [.user "q1", .assistant (some ⟨some "a1"⟩), .user "q2", .assistant none,
       .user "q3", .assistant (some ⟨none⟩), .user "q4", .assistant (some ⟨some "a4"⟩)]
      2 (by omega)).1
    rw [h]
    decide
  · have h := (claim_C10_history_truncation
      [.user "q1", .assistant (some ⟨some "a1"⟩), .user "q2", .assistant none]
      10 (by omega)).2 (by decide)
    rw [h]
    decide

/-! ## Claim C4 -/

/-- The position list currently recorded for `m` (empty when the key is
absent, as `defaultdict(list)` reads it). -/
def getPositions (mp : List (String × List Nat)) (m : String) : List Nat :=
  (mp.lookup m).getD []

theorem addPos_lookup_same : ∀ (mp : List (String × List Nat)) (m : String) (k : Nat),
    (addPos mp m k).lookup m = some (getPositions mp m ++ [k])
  | [], m, k => by simp [addPos, List.lookup, getPositions]
  | (m', ps) :: rest, m, k => by
    by_cases h : m' = m
    · subst h
      simp [addPos, List.lookup, getPositions]
    · have hne : (m == m') = false := beq_eq_false_iff_ne.mpr (Ne.symm h)
      simp only [addPos, if_neg h, List.lookup, hne, getPositions]
      exact addPos_lookup_same rest m k

theorem addPos_lookup_other : ∀ (mp : List (String × List Nat)) (m : String) (k : Nat)
    (m2 : String), m2 ≠ m → (addPos mp m k).lookup m2 = mp.lookup m2
  | [], m, k, m2, h => by
    simp [addPos, List.lookup, beq_eq_false_iff_ne.mpr h]
  | (m', ps) :: rest, m, k, m2, h => by
    by_cases he : m' = m
    · subst he
      simp [addPos, List.lookup, beq_eq_false_iff_ne.mpr h]
    · simp only [addPos, if_neg he, List.lookup]
      rcases hbe : (m2 == m') with _ | _
      · simp only []
        exact addPos_lookup_other rest m k m2 h
      · rfl

theorem addPos_keys_mem : ∀ (mp : List (String × List Nat)) (m : String) (k : Nat)
    (m2 : String), m2 ∈ (addPos mp m k).map Prod.fst ↔ m2 ∈ mp.map Prod.fst ∨ m2 = m
  | [], m, k, m2 => by simp [addPos]
  | (m', ps) :: rest, m, k, m2 => by
    by_cases he : m' = m
    · subst he
      simp [addPos]
      tauto
    · simp only [addPos, if_neg he, List.map_cons, List.mem_cons]
      rw [addPos_keys_mem rest m k m2]
      tauto

theorem addPos_nodup : ∀ (mp : List (String × List Nat)) (m : String) (k : Nat),
    (mp.map Prod.fst).Nodup → ((addPos mp m k).map Prod.fst).Nodup
  | [], m, k, _ => by simp [addPos]
  | (m', ps) :: rest, m, k, hnd => by
    rw [List.map_cons, List.nodup_cons] at hnd
    by_cases he : m' = m
    · subst he
      simpa [addPos, List.nodup_cons] using hnd
    · simp only [addPos, if_neg he, List.map_cons, List.nodup_cons]
      refine ⟨fun hmem => ?_, addPos_nodup rest m k hnd.2⟩
      rcases (addPos_keys_mem rest m k m').mp hmem with h1 | h1
      · exact hnd.1 h1
      · exact he h1

theorem lookup_mem_of_nodup {β : Type} : ∀ (l : List (String × β)) (p : String × β),
    (l.map Prod.fst).Nodup → p ∈ l → l.lookup p.1 = some p.2
  | [], p, _, hp => absurd hp (by simp)
  | (k, b) :: es, p, hnd, hp => by
    rw [List.map_cons, List.nodup_cons] at hnd
    rcases List.mem_cons.mp hp with h | h
    · subst h
      simp [List.lookup]
    · have hmem : p.1 ∈ es.map Prod.fst := List.mem_map_of_mem Prod.fst h
      have hne : (p.1 == k) = false :=
        beq_eq_false_iff_ne.mpr fun he => hnd.1 (he ▸ hmem)
      simp only [List.lookup, hne]
      exact lookup_mem_of_nodup es p hnd.2 h

theorem mem_of_lookup {β : Type} : ∀ (l : List (String × β)) (m : String) (ps : β),
    l.lookup m = some ps → (m, ps) ∈ l
  | [], m, ps, h => by simp [List.lookup] at h
  | (k, b) :: es, m, ps, h => by
    simp only [List.lookup] at h
    rcases hbe : (m == k) with _ | _
    · rw [hbe] at h
      exact List.mem_cons_of_mem _ (mem_of_lookup es m ps h)
    · rw [hbe] at h
      simp only [Option.some.injEq] at h
      have : m = k := beq_iff_eq.mp hbe
      subst this
      subst h
      exact List.mem_cons_self _ _

/-- The inner loop of `calculate_aggregate_rankings` appends, for each
enumerated label mapping to `m`, its 1-based position to `m`'s list. -/
theorem inner_fold_getPositions (ltm : List (String × String)) :
    ∀ (pls : List (Nat × String)) (mp : List (String × List Nat)) (m : String),
      getPositions (pls.foldl (fun mp pl =>
        match ltm.lookup pl.2 with
        | some model_name => addPos mp model_name pl.1
        | none => mp) mp) m =
      getPositions mp m ++ pls.filterMap
        (fun pl => if ltm.lookup pl.2 = some m then some pl.1 else none)
  | [], mp, m => by simp
  | pl :: rest, mp, m => by
    rw [List.foldl_cons, List.filterMap_cons, inner_fold_getPositions ltm rest _ m]
    rcases hlk : ltm.lookup pl.2 with _ | mn
    · simp [hlk]
    · simp only [hlk]
      by_cases hm : mn = m
      · subst hm
        rw [if_pos rfl]
        rw [show getPositions (addPos mp mn pl.1) mn = getPositions mp mn ++ [pl.1] from by
          rw [getPositions, addPos_lookup_same]
          rfl]
        simp
      · rw [if_neg (by simp [hm])]
        rw [show getPositions (addPos mp mn pl.1) m = getPositions mp m from by
          rw [getPositions, addPos_lookup_other mp mn pl.1 m fun he => hm he.symm]
          rfl]

theorem inner_fold_nodup (ltm : List (String × String)) :
    ∀ (pls : List (Nat × String)) (mp : List (String × List Nat)),
      (mp.map Prod.fst).Nodup →
      ((pls.foldl (fun mp pl =>
        match ltm.lookup pl.2 with
        | some model_name => addPos mp model_name pl.1
        | none => mp) mp).map Prod.fst).Nodup
  | [], mp, hnd => hnd
  | pl :: rest, mp, hnd => by
    rw [List.foldl_cons]
    refine inner_fold_nodup ltm rest _ ?_
    rcases hlk : ltm.lookup pl.2 with _ | mn
    · simpa [hlk] using hnd
    · simp only [hlk]
      exact addPos_nodup mp mn pl.1 hnd

theorem specPositions_cons (r : Stage2Entry) (rest : List Stage2Entry)
    (ltm : List (String × String)) (m : String) :
    specPositions (r :: rest) ltm m =
      ((parse_ranking_from_text r.ranking).enumFrom 1).filterMap
        (fun pl => if ltm.lookup pl.2 = some m then some pl.1 else none) ++
      specPositions rest ltm m := by
  simp [specPositions]

theorem outer_fold_getPositions (ltm : List (String × String)) :
    ∀ (stage2 : List Stage2Entry) (mp : List (String × List Nat)) (m : String),
      getPositions (stage2.foldl (fun mp ranking =>
        ((parse_ranking_from_text ranking.ranking).enumFrom 1).foldl
          (fun mp pl =>
            match ltm.lookup pl.2 with
            | some model_name => addPos mp model_name pl.1
            | none => mp) mp) mp) m =
      getPositions mp m ++ specPositions stage2 ltm m
  | [], mp, m => by simp [specPositions]
  | r :: rest, mp, m => by
    rw [List.foldl_cons, outer_fold_getPositions ltm rest _ m,
      inner_fold_getPositions ltm _ mp m, specPositions_cons, List.append_assoc]

theorem outer_fold_nodup (ltm : List (String × String)) :
    ∀ (stage2 : List Stage2Entry) (mp : List (String × List Nat)),
      (mp.map Prod.fst).Nodup →
      ((stage2.foldl (fun mp ranking =>
        ((parse_ranking_from_text ranking.ranking).enumFrom 1).foldl
          (fun mp pl =>
            match ltm.lookup pl.2 with
            | some model_name => addPos mp model_name pl.1
            | none => mp) mp) mp).map Prod.fst).Nodup
  | [], mp, hnd => hnd
  | r :: rest, mp, hnd => by
    rw [List.foldl_cons]
    exact outer_fold_nodup ltm rest _ (inner_fold_nodup ltm _ mp hnd)

/-- C4: every aggregate entry carries the mean (rounded to two decimals)
and the count of exactly the positions the claim assigns — the label at
1-based position `k` of each parsed ranking contributes `k` to its
mapped model, duplicates repeated, omitted models receiving nothing from
that ranker (`specPositions`) — models with no contribution are absent,
every model with a contribution is present, the output is sorted
ascending by average rank, and the worked two-ranker example evaluates
to `m3` and `m1` at 1.5, `m2` at 3.0, nobody excluded, `m2` last. -/
theorem claim_C4_aggregate_rankings (stage2 : List Stage2Entry)
    (ltm : List (String × String)) :
    (∀ e ∈ calculate_aggregate_rankings stage2 ltm,
      specPositions stage2 ltm e.model ≠ [] ∧
      e.average_rank = round2 (((specPositions stage2 ltm e.model).sum : ℚ) /
        ((specPositions stage2 ltm e.model).length : ℚ)) ∧
      e.rankings_count = (specPositions stage2 ltm e.model).length) ∧
    (∀ m, specPositions stage2 ltm m ≠ [] →
      ∃ e ∈ calculate_aggregate_rankings stage2 ltm, e.model = m) ∧
    List.Sorted (fun a b : AggregateEntry => a.average_rank ≤ b.average_rank)
      (calculate_aggregate_rankings stage2 ltm) ∧
    calculate_aggregate_rankings exampleStage2 exampleLabelMap =
      [{ model := "m3", average_rank := 3/2, rankings_count := 2 },
       { model := "m1", average_rank := 3/2, rankings_count := 2 },
       { model := "m2", average_rank := 3, rankings_count := 1 }] := by
  have hpos : ∀ m, getPositions (stage2.foldl (fun mp ranking =>
      ((parse_ranking_from_text ranking.ranking).enumFrom 1).foldl
        (fun mp pl =>
          match ltm.lookup pl.2 with
          | some model_name => addPos mp model_name pl.1
          | none => mp) mp) []) m = specPositions stage2 ltm m := by
    intro m
    have h0 := outer_fold_getPositions ltm stage2 [] m
    rw [show getPositions [] m = [] from rfl, List.nil_append] at h0
    exact h0
  have hnd : ((stage2.foldl (fun mp ranking =>
      ((parse_ranking_from_text ranking.ranking).enumFrom 1).foldl
        (fun mp pl =>
          match ltm.lookup pl.2 with
          | some model_name => addPos mp model_name pl.1
          | none => mp) mp) []).map Prod.fst).Nodup :=
    outer_fold_nodup ltm stage2 [] (by simp)
  refine ⟨?_, ?_, ?_, by with_unfolding_all decide⟩
  · intro e he
    rw [calculate_aggregate_rankings] at he
    have hperm := List.perm_insertionSort
      (fun a b : AggregateEntry => a.average_rank ≤ b.average_rank)
      ((stage2.foldl (fun mp ranking =>
        ((parse_ranking_from_text ranking.ranking).enumFrom 1).foldl
          (fun mp pl =>
            match ltm.lookup pl.2 with
            | some model_name => addPos mp model_name pl.1
            | none => mp) mp) []).filterMap fun p =>
        if p.2.isEmpty then none
        else some { model := p.1,
                    average_rank := round2 ((p.2.sum : ℚ) / (p.2.length : ℚ)),
                    rankings_count := p.2.length })
    have he2 := hperm.mem_iff.mp he
    obtain ⟨p, hpmem, hpe⟩ := List.mem_filterMap.mp he2
    rcases hq : p.2.isEmpty with _ | _
    · rw [hq] at hpe
      simp only [Bool.false_eq_true, if_false, Option.some.injEq] at hpe
      have hlk : (stage2.foldl (fun mp ranking =>
          ((parse_ranking_from_text ranking.ranking).enumFrom 1).foldl
            (fun mp pl =>
              match ltm.lookup pl.2 with
              | some model_name => addPos mp model_name pl.1
              | none => mp) mp) []).lookup p.1 = some p.2 :=
        lookup_mem_of_nodup _ p hnd hpmem
      have hspec : specPositions stage2 ltm p.1 = p.2 := by
        rw [← hpos p.1, getPositions, hlk]
        rfl
      have hmodel : e.model = p.1 := by rw [← hpe]
      rw [hmodel, hspec, ← hpe]
      refine ⟨fun hnil => by rw [hnil] at hq; simp at hq, rfl, rfl⟩
    · rw [hq] at hpe
      simp at hpe
  · intro m hm
    rw [← hpos m] at hm
    rcases hlk : (stage2.foldl (fun mp ranking =>
        ((parse_ranking_from_text ranking.ranking).enumFrom 1).foldl
          (fun mp pl =>
            match ltm.lookup pl.2 with
            | some model_name => addPos mp model_name pl.1
            | none => mp) mp) []).lookup m with _ | ps
    · rw [getPositions, hlk] at hm
      simp at hm
    · have hmem := mem_of_lookup _ m ps hlk
      have hpsne : ps ≠ [] := by
        rw [getPositions, hlk] at hm
        simpa using hm
      have hne : ps.isEmpty = false := by
        rcases ps with _ | ⟨a, as⟩
        · exact absurd rfl hpsne
        · rfl
      refine ⟨{ model := m, average_rank := round2 ((ps.sum : ℚ) / (ps.length : ℚ)),
                rankings_count := ps.length }, ?_, rfl⟩
      rw [calculate_aggregate_rankings]
      have hperm := List.perm_insertionSort
        (fun a b : AggregateEntry => a.average_rank ≤ b.average_rank)
        ((stage2.foldl (fun mp ranking =>
          ((parse_ranking_from_text ranking.ranking).enumFrom 1).foldl
            (fun mp pl =>
              match ltm.lookup pl.2 with
              | some model_name => addPos mp model_name pl.1
              | none => mp) mp) []).filterMap fun p =>
          if p.2.isEmpty then none
          else some { model := p.1,
                      average_rank := round2 ((p.2.sum : ℚ) / (p.2.length : ℚ)),
                      rankings_count := p.2.length })
      refine hperm.mem_iff.mpr (List.mem_filterMap.mpr ⟨(m, ps), hmem, ?_⟩)
      rw [hne]
      simp
  · rw [calculate_aggregate_rankings]
    haveI : IsTotal AggregateEntry
        (fun a b : AggregateEntry => a.average_rank ≤ b.average_rank) :=
      ⟨fun a b => le_total _ _⟩
    haveI : IsTrans AggregateEntry
        (fun a b : AggregateEntry => a.average_rank ≤ b.average_rank) :=
      ⟨fun _ _ _ hab hbc => le_trans hab hbc⟩
    exact List.sorted_insertionSort _ _

theorem claim_C4_aggregate_rankings_witness :
    (specPositions exampleStage2 exampleLabelMap "m2" ≠ [] ∧
      ({ model := "m2", average_rank := 3, rankings_count := 1 } :
          AggregateEntry).average_rank =
        round2 (((specPositions exampleStage2 exampleLabelMap "m2").sum : ℚ) /
          ((specPositions exampleStage2 exampleLabelMap "m2").length : ℚ)) ∧
      ({ model := "m2", average_rank := 3, rankings_count := 1 } :
          AggregateEntry).rankings_count =
        (specPositions exampleStage2 exampleLabelMap "m2").length) ∧
    calculate_aggregate_rankings exampleStage2 exampleLabelMap =
      [{ model := "m3", average_rank := 3/2, rankings_count := 2 },
       { model := "m1", average_rank := 3/2, rankings_count := 2 },
       { model := "m2", average_rank := 3, rankings_count := 1 }] := by
  have h := claim_C4_aggregate_rankings exampleStage2 exampleLabelMap
  refine ⟨h.1 { model := "m2", average_rank := 3, rankings_count := 1 } ?_, h.2.2.2⟩
  rw [h.2.2.2]
  simp

end LLMCouncil
